import Mathlib

/-!
Verification of the consent-ledger cryptographic attestation core.

This file shallowly embeds the hashing, lineage, export, verification,
idempotency, and delegation code of the repository (apps/api/core) into
Lean 4 and proves the spec's testable properties about the embedding.

Machine integers are modelled as `Nat` with explicit reduction modulo
2^32 where the Python code relies on 32-bit semantics (inside SHA-256).
Python dicts that verification functions inspect key-by-key are modelled
as structures whose fields mirror the required keys; side-effecting
telemetry (metric counters, best-effort system events) has no observable
return value and is dropped.  Python functions that can raise are
embedded with `Except`/`Option` results.
-/

namespace ConsentLedger

/- ### SHA-256 primitive (hashlib.sha256 over bytes, hex digest)

A from-scratch SHA-256 so digests evaluate inside the kernel.  Bytes are
`Nat` values < 256; words are `Nat` values < 2^32, reduced with `w32`. -/

def w32 (n : Nat) : Nat := n % 4294967296

def bnot32 (n : Nat) : Nat := 4294967295 ^^^ n

def rotr (k x : Nat) : Nat := w32 ((x >>> k) ||| (x <<< (32 - k)))

/-- The 64 SHA-256 round constants (FIPS 180-4), in decimal. -/
def shaK : List Nat :=
  [1116352408, 1899447441, 3049323471, 3921009573, 961987163,
   1508970993, 2453635748, 2870763221, 3624381080, 310598401,
   607225278, 1426881987, 1925078388, 2162078206, 2614888103,
   3248222580, 3835390401, 4022224774, 264347078, 604807628,
   770255983, 1249150122, 1555081692, 1996064986, 2554220882,
   2821834349, 2952996808, 3210313671, 3336571891, 3584528711,
   113926993, 338241895, 666307205, 773529912, 1294757372,
   1396182291, 1695183700, 1986661051, 2177026350, 2456956037,
   2730485921, 2820302411, 3259730800, 3345764771, 3516065817,
   3600352804, 4094571909, 275423344, 430227734, 506948616,
   659060556, 883997877, 958139571, 1322822218, 1537002063,
   1747873779, 1955562222, 2024104815, 2227730452, 2361852424,
   2428436474, 2756734187, 3204031479, 3329325298]

/-- Working state of the compression function. -/
structure ShaState where
  a : Nat
  b : Nat
  c : Nat
  d : Nat
  e : Nat
  f : Nat
  g : Nat
  h : Nat

def shaInit : ShaState :=
  ⟨1779033703, 3144134277, 1013904242, 2773480762,
   1359893119, 2600822924, 528734635, 1541459225⟩

def shaRound (s : ShaState) (k : Nat) (w : Nat) : ShaState :=
  let s1 := (rotr 6 s.e) ^^^ (rotr 11 s.e) ^^^ (rotr 25 s.e)
  let ch := (s.e &&& s.f) ^^^ ((bnot32 s.e) &&& s.g)
  let t1 := w32 (s.h + s1 + ch + k + w)
  let s0 := (rotr 2 s.a) ^^^ (rotr 13 s.a) ^^^ (rotr 22 s.a)
  let mj := (s.a &&& s.b) ^^^ (s.a &&& s.c) ^^^ (s.b &&& s.c)
  let t2 := w32 (s0 + mj)
  ⟨w32 (t1 + t2), s.a, s.b, s.c, w32 (s.d + t1), s.e, s.f, s.g⟩

def shaRounds : ShaState → List (Nat × Nat) → ShaState
  | s, [] => s
  | s, (k, w) :: rest => shaRounds (shaRound s k w) rest

/-- Big-endian 4-byte groups to 32-bit words. -/
def bytesToWords : List Nat → List Nat
  | b0 :: b1 :: b2 :: b3 :: rest =>
      (b0 * 16777216 + b1 * 65536 + b2 * 256 + b3) :: bytesToWords rest
  | _ => []

/-- Extend 16 message words with `fuel = 48` schedule steps. -/
def extendWords (ws : List Nat) : Nat → List Nat
  | 0 => ws
  | fuel + 1 =>
      let n := ws.length
      let w15 := ws.getD (n - 15) 0
      let w2 := ws.getD (n - 2) 0
      let w16 := ws.getD (n - 16) 0
      let w7 := ws.getD (n - 7) 0
      let s0 := (rotr 7 w15) ^^^ (rotr 18 w15) ^^^ (w15 >>> 3)
      let s1 := (rotr 17 w2) ^^^ (rotr 19 w2) ^^^ (w2 >>> 10)
      extendWords (ws ++ [w32 (w16 + s0 + w7 + s1)]) fuel

def addStates (x y : ShaState) : ShaState :=
  ⟨w32 (x.a + y.a), w32 (x.b + y.b), w32 (x.c + y.c), w32 (x.d + y.d),
   w32 (x.e + y.e), w32 (x.f + y.f), w32 (x.g + y.g), w32 (x.h + y.h)⟩

def processBlock (s : ShaState) (block : List Nat) : ShaState :=
  let ws := extendWords (bytesToWords block) 48
  addStates s (shaRounds s (shaK.zip ws))

def processBlocks : ShaState → List (List Nat) → ShaState
  | s, [] => s
  | s, blk :: rest => processBlocks (processBlock s blk) rest

/-- Big-endian fixed-width byte rendering of a Nat. -/
def natToBytesBE : Nat → Nat → List Nat
  | 0, _ => []
  | width + 1, n => natToBytesBE width (n / 256) ++ [n % 256]

/-- SHA-256 padding: 0x80, zeros to 56 mod 64, then the 64-bit bit length. -/
def padMessage (msg : List Nat) : List Nat :=
  let len := msg.length
  let zeros := (119 - len % 64) % 64
  msg ++ [128] ++ List.replicate zeros 0 ++ natToBytesBE 8 (len * 8)

/-- Split into 64-byte blocks (fuel-bounded; fuel `l.length` suffices since
each step drops 64 bytes of a padded, hence nonempty-multiple, input). -/
def chunks64 : List Nat → Nat → List (List Nat)
  | [], _ => []
  | _ :: _, 0 => []
  | l, fuel + 1 => l.take 64 :: chunks64 (l.drop 64) fuel

def sha256Nat (msg : List Nat) : Nat :=
  let padded := padMessage msg
  let s := processBlocks shaInit (chunks64 padded padded.length)
  ((((((s.a * 4294967296 + s.b) * 4294967296 + s.c) * 4294967296 + s.d) * 4294967296 + s.e)
      * 4294967296 + s.f) * 4294967296 + s.g) * 4294967296 + s.h

def hexDigit (n : Nat) : Char :=
  if n = 0 then '0' else if n = 1 then '1' else if n = 2 then '2' else if n = 3 then '3'
  else if n = 4 then '4' else if n = 5 then '5' else if n = 6 then '6' else if n = 7 then '7'
  else if n = 8 then '8' else if n = 9 then '9' else if n = 10 then 'a' else if n = 11 then 'b'
  else if n = 12 then 'c' else if n = 13 then 'd' else if n = 14 then 'e' else 'f'

/-- Fixed-width lowercase hex rendering (width hex digits, big-endian). -/
def natToHexFixed : Nat → Nat → List Char
  | 0, _ => []
  | width + 1, n => natToHexFixed width (n / 16) ++ [hexDigit (n % 16)]

/-- `hashlib.sha256(bytes).hexdigest()`: always 64 lowercase hex chars. -/
def sha256Hex (msg : List Nat) : String :=
  ⟨natToHexFixed 64 (sha256Nat msg)⟩

/- ### UTF-8 encoding (`str.encode("utf-8")`) -/

def utf8Char (c : Char) : List Nat :=
  let n := c.toNat
  if n < 128 then [n]
  else if n < 2048 then [192 + n / 64, 128 + n % 64]
  else if n < 65536 then [224 + n / 4096, 128 + (n / 64) % 64, 128 + n % 64]
  else [240 + n / 262144, 128 + (n / 4096) % 64, 128 + (n / 64) % 64, 128 + n % 64]

def utf8 (s : String) : List Nat := (s.data.map utf8Char).flatten

set_option maxRecDepth 10000 in
example : sha256Hex (utf8 "abc") =
    "ba7816bf8f01cfea414140de5dae2223b00361a396177a9cb410ff61f20015ad" := by decide

/- ### JSON values and `json.dumps(..., sort_keys=True, separators=(",", ":"))`

Mutual inductive so serialization is structurally recursive (and hence
kernel-computable).  Numbers are integers; the code never serializes
floats on the hashed paths. -/

mutual
inductive Json where
  | null : Json
  | bool (b : Bool) : Json
  | num (n : Int) : Json
  | str (s : String) : Json
  | arr (elems : JsonList) : Json
  | obj (fields : JsonFields) : Json

inductive JsonList where
  | nil : JsonList
  | cons (hd : Json) (tl : JsonList) : JsonList

inductive JsonFields where
  | nil : JsonFields
  | cons (key : String) (val : Json) (tl : JsonFields) : JsonFields
end

/-- Code-point lexicographic order on char lists (Python `str` `<=`). -/
def charListLe : List Char → List Char → Bool
  | [], _ => true
  | _ :: _, [] => false
  | a :: as, b :: bs =>
      if a.toNat < b.toNat then true
      else if b.toNat < a.toNat then false
      else charListLe as bs

def strLe (a b : String) : Bool := charListLe a.data b.data

/-- Stable insertion of a rendered key/value pair by key order. -/
def insertPair (p : String × String) : List (String × String) → List (String × String)
  | [] => [p]
  | q :: rest => if strLe p.1 q.1 then p :: q :: rest else q :: insertPair p rest

/-- Stable sort of rendered pairs by key (Python `sorted(d.items())`). -/
def sortPairs : List (String × String) → List (String × String)
  | [] => []
  | p :: rest => insertPair p (sortPairs rest)

def hex4 (n : Nat) : List Char := natToHexFixed 4 n

/-- Python `json` string escaping.  With `ea = true` (`ensure_ascii=True`,
the default) code points above 0x7E are `\uXXXX`-escaped (surrogate pairs
beyond the BMP); with `ea = false` they are emitted raw. -/
def escapeChar (ea : Bool) (c : Char) : List Char :=
  if c = '"' then ['\\', '"']
  else if c = '\\' then ['\\', '\\']
  else if c.toNat = 10 then ['\\', 'n']
  else if c.toNat = 13 then ['\\', 'r']
  else if c.toNat = 9 then ['\\', 't']
  else if c.toNat = 8 then ['\\', 'b']
  else if c.toNat = 12 then ['\\', 'f']
  else if c.toNat < 32 then '\\' :: 'u' :: hex4 c.toNat
  else if ea && 126 < c.toNat then
    if c.toNat < 65536 then '\\' :: 'u' :: hex4 c.toNat
    else
      let m := c.toNat - 65536
      ('\\' :: 'u' :: hex4 (55296 + m / 1024)) ++ ('\\' :: 'u' :: hex4 (56320 + m % 1024))
  else [c]

def quoteJsonString (ea : Bool) (s : String) : String :=
  ⟨'"' :: ((s.data.map (escapeChar ea)).flatten ++ ['"'])⟩

def intRepr : Int → String
  | Int.ofNat m => Nat.repr m
  | Int.negSucc m => "-" ++ Nat.repr (m + 1)

/-- Render sorted `"key":value` pairs, comma-joined. -/
def joinObjPairs (ea : Bool) : List (String × String) → String
  | [] => ""
  | [(k, v)] => quoteJsonString ea k ++ ":" ++ v
  | (k, v) :: rest => quoteJsonString ea k ++ ":" ++ v ++ "," ++ joinObjPairs ea rest

mutual
/-- `json.dumps(value, sort_keys=True, separators=(",", ":"))` with
`ensure_ascii = ea`.  Keys are sorted on raw code points; rendering a
value does not depend on its position, so rendering before sorting equals
Python's sort-then-render. -/
def dumpsJson (ea : Bool) : Json → String
  | Json.null => "null"
  | Json.bool true => "true"
  | Json.bool false => "false"
  | Json.num n => intRepr n
  | Json.str s => quoteJsonString ea s
  | Json.arr xs => "[" ++ dumpsArr ea xs ++ "]"
  | Json.obj fs => "\x7b" ++ joinObjPairs ea (sortPairs (dumpsFields ea fs)) ++ "\x7d"

def dumpsArr (ea : Bool) : JsonList → String
  | JsonList.nil => ""
  | JsonList.cons x JsonList.nil => dumpsJson ea x
  | JsonList.cons x rest => dumpsJson ea x ++ "," ++ dumpsArr ea rest

def dumpsFields (ea : Bool) : JsonFields → List (String × String)
  | JsonFields.nil => []
  | JsonFields.cons k v rest => (k, dumpsJson ea v) :: dumpsFields ea rest
end

/-- `core/canonical.py` / `core/lineage.py` `canonical_json`:
`json.dumps(obj, sort_keys=True, separators=(",", ":"), ensure_ascii=False)`. -/
def canonicalJson (j : Json) : String := dumpsJson false j

def canonicalJsonBytes (j : Json) : List Nat := utf8 (canonicalJson j)

/-- The empty payload object `{}`. -/
def emptyObj : Json := Json.obj JsonFields.nil

example : canonicalJson emptyObj = "\x7b\x7d" := by decide

/- ### Hash material functions -/

/-- The dict argument of `compute_event_hash` (`core/lineage.py`). -/
structure EventHashInput where
  tenant_id : String
  consent_id : String
  action : String
  payload : Json

/-- `core/lineage.py` `compute_event_hash`. -/
def computeEventHash (p : EventHashInput) (prev : Option String) : String :=
  let material :=
    p.tenant_id ++ "|" ++ p.consent_id ++ "|" ++ p.action ++ "|"
      ++ canonicalJson p.payload ++ "|" ++ prev.getD ""
  sha256Hex (utf8 material)

/-- `core/lineage_anchor.py` `compute_tenant_anchor`. -/
def computeTenantAnchor (tenant_id : String) (lineage_root_hash : String) : String :=
  sha256Hex (utf8 ("ANCHOR|" ++ tenant_id ++ "|" ++ lineage_root_hash))

/-- Stable insertion sort of strings in code-point order (Python `sorted`). -/
def insertStr (s : String) : List String → List String
  | [] => [s]
  | t :: rest => if strLe s t then s :: t :: rest else t :: insertStr s rest

def sortStrings : List String → List String
  | [] => []
  | s :: rest => insertStr s (sortStrings rest)

/-- `core/external_anchor.py` `compute_anchor_digest`. -/
def computeAnchorDigest (tenant_anchors : List String) : String :=
  sha256Hex (utf8 (String.intercalate "\n" (sortStrings tenant_anchors)))

/-- `core/idempotency.py` `_canonical_json`: like `canonical_json` but with
the `ensure_ascii=True` default, so non-ASCII code points are escaped. -/
def idemCanonicalJson (j : Json) : String := dumpsJson true j

/-- Python `str.upper()` restricted to ASCII (HTTP methods are ASCII). -/
def upperAscii (s : String) : String := ⟨s.data.map Char.toUpper⟩

/-- `core/idempotency.py` `build_request_hash`. -/
def buildRequestHash (method : String) (path : String) (body : Json) : String :=
  sha256Hex (utf8 (upperAscii method ++ "|" ++ path ++ "|" ++ idemCanonicalJson body))

/-- The request hash as §4.H of the spec words it: the same material but
with the §4.A canonicalization (non-ASCII code points preserved).
Modelled from the spec for comparison against `buildRequestHash`. -/
def specRequestHash (method : String) (path : String) (body : Json) : String :=
  sha256Hex (utf8 (upperAscii method ++ "|" ++ path ++ "|" ++ canonicalJson body))

set_option maxRecDepth 10000 in
example :
    computeEventHash ⟨"t", "c", "created", emptyObj⟩ none =
      "add0bc7b3376b67b13d04e96d6bb89e717f5c62ddc3b972bb349fdc8cce69a2b" := by decide

/- ### RFC3339 timestamps

UTC instants are `Nat` microseconds since 1970-01-01T00:00:00Z (the code
works in `timezone.utc` with microsecond precision).  Rendering mirrors
`_to_rfc3339` (`datetime.isoformat()` with `+00:00` replaced by `Z`,
fractional part omitted when zero); parsing mirrors `_parse_rfc3339`
(`Z` replaced by `+00:00`, then `datetime.fromisoformat`) on the
timestamp shapes the system emits. -/

def pad2 (n : Nat) : String := if n < 10 then "0" ++ Nat.repr n else Nat.repr n

def pad4 (n : Nat) : String :=
  if n < 10 then "000" ++ Nat.repr n
  else if n < 100 then "00" ++ Nat.repr n
  else if n < 1000 then "0" ++ Nat.repr n
  else Nat.repr n

def pad6 (n : Nat) : String :=
  if n < 10 then "00000" ++ Nat.repr n
  else if n < 100 then "0000" ++ Nat.repr n
  else if n < 1000 then "000" ++ Nat.repr n
  else if n < 10000 then "00" ++ Nat.repr n
  else if n < 100000 then "0" ++ Nat.repr n
  else Nat.repr n

/-- Civil date from days since the epoch (proleptic Gregorian). -/
def civilFromDays (z : Nat) : Nat × Nat × Nat :=
  let z' := z + 719468
  let era := z' / 146097
  let doe := z' % 146097
  let yoe := (doe - doe / 1460 + doe / 36524 - doe / 146096) / 365
  let y := yoe + era * 400
  let doy := doe - (365 * yoe + yoe / 4 - yoe / 100)
  let mp := (5 * doy + 2) / 153
  let d := doy - (153 * mp + 2) / 5 + 1
  let m := if mp < 10 then mp + 3 else mp - 9
  (if m ≤ 2 then y + 1 else y, m, d)

/-- Days since the epoch from a civil date (inverse of `civilFromDays`). -/
def daysFromCivil (y m d : Int) : Int :=
  let y' := if m ≤ 2 then y - 1 else y
  let era := (if 0 ≤ y' then y' else y' - 399) / 400
  let yoe := y' - era * 400
  let mp := if 2 < m then m - 3 else m + 9
  let doy := (153 * mp + 2) / 5 + d - 1
  let doe := yoe * 365 + yoe / 4 - yoe / 100 + doy
  era * 146097 + doe - 719468

def rfc3339OfMicros (t : Nat) : String :=
  let micros := t % 1000000
  let secs := t / 1000000
  let (y, m, d) := civilFromDays (secs / 86400)
  let rem := secs % 86400
  let base :=
    pad4 y ++ "-" ++ pad2 m ++ "-" ++ pad2 d ++ "T" ++ pad2 (rem / 3600) ++ ":"
      ++ pad2 ((rem / 60) % 60) ++ ":" ++ pad2 (rem % 60)
  let frac := if micros = 0 then "" else "." ++ pad6 micros
  base ++ frac ++ "Z"

def digitVal (c : Char) : Option Nat :=
  if '0' ≤ c ∧ c ≤ '9' then some (c.toNat - 48) else none

/-- Parse exactly `n` decimal digits off the front. -/
def parseFixedNat : Nat → Nat → List Char → Option (Nat × List Char)
  | 0, acc, rest => some (acc, rest)
  | _ + 1, _, [] => none
  | n + 1, acc, c :: rest =>
      match digitVal c with
      | some v => parseFixedNat n (acc * 10 + v) rest
      | none => none

def expectChar (c : Char) : List Char → Option (List Char)
  | [] => none
  | x :: rest => if x = c then some rest else none

def isLeapYear (y : Nat) : Bool := (y % 4 = 0 && y % 100 ≠ 0) || y % 400 = 0

def daysInMonth (y m : Nat) : Nat :=
  if m = 2 then (if isLeapYear y then 29 else 28)
  else if m = 4 ∨ m = 6 ∨ m = 9 ∨ m = 11 then 30
  else 31

/-- Collect up to six fractional-second digits, scaling to microseconds. -/
def parseFrac : Nat → Nat → List Char → Nat × List Char
  | _, acc, [] => (acc, [])
  | 0, acc, l => (acc, l)
  | n + 1, acc, c :: rest =>
      match digitVal c with
      | some v => parseFrac n (acc * 10 + v) rest
      | none => (acc, c :: rest)

def fracScale : Nat → Nat → Nat
  | left, acc => acc * 10 ^ left

/-- `_parse_rfc3339`: `Z` → `+00:00`, then `datetime.fromisoformat` on
`YYYY-MM-DDTHH:MM:SS[.f{1,6}][±HH:MM]` with calendar validation.
Result is microseconds since the epoch (offset-aware values normalized
to UTC; offset-naive values are compared as UTC by the callers). -/
def parseRfc3339 (ts : String) : Option Int :=
  let replaced := ts.data.flatMap (fun c => if c = 'Z' then "+00:00".data else [c])
  match parseFixedNat 4 0 replaced with
  | none => none
  | some (y, r1) =>
  match expectChar '-' r1 with
  | none => none
  | some r2 =>
  match parseFixedNat 2 0 r2 with
  | none => none
  | some (mo, r3) =>
  match expectChar '-' r3 with
  | none => none
  | some r4 =>
  match parseFixedNat 2 0 r4 with
  | none => none
  | some (d, r5) =>
  match expectChar 'T' r5 with
  | none => none
  | some r6 =>
  match parseFixedNat 2 0 r6 with
  | none => none
  | some (h, r7) =>
  match expectChar ':' r7 with
  | none => none
  | some r8 =>
  match parseFixedNat 2 0 r8 with
  | none => none
  | some (mi, r9) =>
  match expectChar ':' r9 with
  | none => none
  | some r10 =>
  match parseFixedNat 2 0 r10 with
  | none => none
  | some (s, r11) =>
  if ¬(1 ≤ mo ∧ mo ≤ 12 ∧ 1 ≤ d ∧ d ≤ daysInMonth y mo ∧ h < 24 ∧ mi < 60 ∧ s < 60) then
    none
  else
    let (frac, r12) :=
      match r11 with
      | '.' :: rest =>
          match rest with
          | c :: _ =>
              match digitVal c with
              | some _ =>
                  let (acc, rem) := parseFrac 6 0 rest
                  ((acc * 10 ^ (6 - (rest.length - rem.length))) % 1000000, rem)
              | none => (0, '.' :: rest)
          | [] => (0, '.' :: rest)
      | other => (0, other)
    let fracBad := match r11 with
      | '.' :: rest =>
          match rest with
          | c :: _ => (digitVal c).isNone
          | [] => true
      | _ => false
    if fracBad then none
    else
      let base : Int :=
        (daysFromCivil (Int.ofNat y) (Int.ofNat mo) (Int.ofNat d) * 86400
          + Int.ofNat (h * 3600 + mi * 60 + s)) * 1000000 + Int.ofNat frac
      match r12 with
      | [] => some base
      | sign :: r13 =>
          if sign ≠ '+' ∧ sign ≠ '-' then none
          else
            match parseFixedNat 2 0 r13 with
            | none => none
            | some (oh, r14) =>
            match expectChar ':' r14 with
            | none => none
            | some r15 =>
            match parseFixedNat 2 0 r15 with
            | none => none
            | some (om, r16) =>
              if r16 ≠ [] ∨ ¬(oh < 24 ∧ om < 60) then none
              else
                let off : Int := Int.ofNat ((oh * 3600 + om * 60) * 1000000)
                some (if sign = '+' then base - off else base + off)

/- ### Lineage DB model and `add_lineage_event`

One `(tenant_id, consent_id)` stream of `ConsentLineageEvent` rows, in
insertion order; `id` models the autoincrement primary key (only its
relative order is observable through the queries). -/

/-- The fields of `models.Consent` that the lineage code reads. -/
structure ConsentRow where
  tenant_id : String
  id : String
  subject_id : String
  purpose : String
  status : String

/-- A `models.ConsentLineageEvent` row of one consent's stream. -/
structure DBLineageEvent where
  id : Nat
  action : String
  event_hash : String
  prev_event_hash : Option String
  created_at : Nat
deriving DecidableEq

/-- One comparison step of the tip query's `ORDER BY` semantics. -/
def pickTip (acc : Option DBLineageEvent) (e : DBLineageEvent) : Option DBLineageEvent :=
  match acc with
  | none => some e
  | some t =>
      some (if t.created_at < e.created_at ∨ (t.created_at = e.created_at ∧ t.id < e.id)
        then e else t)

/-- The tip query: `ORDER BY created_at DESC, id DESC LIMIT 1`. -/
def tipEvent (db : List DBLineageEvent) : Option DBLineageEvent :=
  db.foldl pickTip none

/-- The row built by `core/lineage.py` `add_lineage_event` (before insert). -/
def newLineageEvent (db : List DBLineageEvent) (consent : ConsentRow) (action : String)
    (now : Nat) : DBLineageEvent :=
  let previous := tipEvent db
  let prev_hash := previous.map (fun p => p.event_hash)
  let created_at :=
    match previous with
    | some p => if now ≤ p.created_at then p.created_at + 1 else now
    | none => now
  let payload := Json.obj (JsonFields.cons "subject_id" (Json.str consent.subject_id)
    (JsonFields.cons "purpose" (Json.str consent.purpose)
      (JsonFields.cons "status" (Json.str consent.status) JsonFields.nil)))
  let event_hash := computeEventHash ⟨consent.tenant_id, consent.id, action, payload⟩ prev_hash
  ⟨db.length, action, event_hash, prev_hash, created_at⟩

/-- `add_lineage_event` followed by the insert (`db.add`). -/
def addLineageEvent (db : List DBLineageEvent) (consent : ConsentRow) (action : String)
    (now : Nat) : List DBLineageEvent :=
  db ++ [newLineageEvent db consent action now]

/- ### `export_consent_lineage` (`core/lineage_export.py`) -/

/-- One entry of the export's `events` list. -/
structure ExportEvent where
  action : String
  event_hash : String
  prev_event_hash : Option String
  created_at : String
deriving DecidableEq

/-- The export dict; optional fields model key presence.  The claims under
verification use the unsigned artifact, so the embedded builder covers the
unsigned path; signed exports enter only as arbitrary values. -/
structure LineageExport where
  version : Int
  tenant_id : String
  consent_id : String
  algorithm : String
  canonicalization : String
  tenant_anchor : String
  events : List ExportEvent
  signer_identity_fingerprint : Option String
  signer_public_key : Option String
  signature : Option String
deriving DecidableEq

/-- `ORDER BY created_at ASC, id ASC`: stable insertion sort. -/
def eventLe (a b : DBLineageEvent) : Bool :=
  if a.created_at < b.created_at then true
  else if b.created_at < a.created_at then false
  else decide (a.id ≤ b.id)

def insertEvent (e : DBLineageEvent) : List DBLineageEvent → List DBLineageEvent
  | [] => [e]
  | x :: rest => if eventLe e x then e :: x :: rest else x :: insertEvent e rest

def sortEvents : List DBLineageEvent → List DBLineageEvent
  | [] => []
  | e :: rest => insertEvent e (sortEvents rest)

/-- The `by_prev` dict: last row with the given `prev_event_hash` wins. -/
def byPrevGet (evts : List DBLineageEvent) (k : Option String) : Option DBLineageEvent :=
  evts.foldl (fun acc e => if e.prev_event_hash = k then some e else acc) none

/-- The prev-hash relink walk (`while current and current.id not in seen`).
Each step adds an unseen id drawn from the finite row set, so at most
`|evts|` steps happen; fuel `|evts| + 1` never runs out on the paths the
source can take. -/
def walkChain (evts : List DBLineageEvent) :
    Nat → List Nat → Option DBLineageEvent → List DBLineageEvent
  | 0, _, _ => []
  | _ + 1, _, none => []
  | fuel + 1, seen, some e =>
      if e.id ∈ seen then []
      else e :: walkChain evts fuel (e.id :: seen) (byPrevGet evts (some e.event_hash))

/-- Relinked order with fallback to insertion order on miscount. -/
def orderedEvents (raw : List DBLineageEvent) : List DBLineageEvent :=
  let walked := walkChain raw (raw.length + 1) [] (byPrevGet raw none)
  if walked.length = raw.length then walked else raw

/-- The export loop: public hashes recomputed with an empty payload. -/
def buildExportEvents (tenant consent : String) :
    Option String → List DBLineageEvent → List ExportEvent
  | _, [] => []
  | prev, e :: rest =>
      let publicHash := computeEventHash ⟨tenant, consent, e.action, emptyObj⟩ prev
      ⟨e.action, publicHash, prev, rfc3339OfMicros e.created_at⟩
        :: buildExportEvents tenant consent (some publicHash) rest

/-- `core/lineage_export.py` `export_consent_lineage`, unsigned path. -/
def exportConsentLineage (tenant_id consent_id : String)
    (db : List DBLineageEvent) : LineageExport :=
  let raw := sortEvents db
  let ordered := orderedEvents raw
  let events := buildExportEvents tenant_id consent_id none ordered
  let root := (events.getLast?.map (fun e => e.event_hash)).getD ""
  { version := 1
    tenant_id := tenant_id
    consent_id := consent_id
    algorithm := "SHA256"
    canonicalization := "sorted-json-no-whitespace"
    tenant_anchor := computeTenantAnchor tenant_id root
    events := events
    signer_identity_fingerprint := none
    signer_public_key := none
    signature := none }

/- ### Identity fingerprints (`core/identity_crypto.py`)

`verify_public_key_format` raises `ValueError`; raising is embedded as
`Except.error` carrying the exception message. -/

def hexVal (c : Char) : Option Nat :=
  if '0' ≤ c ∧ c ≤ '9' then some (c.toNat - 48)
  else if 'a' ≤ c ∧ c ≤ 'f' then some (c.toNat - 87)
  else if 'A' ≤ c ∧ c ≤ 'F' then some (c.toNat - 55)
  else none

/-- `bytes.fromhex` on strict hex (no embedded whitespace). -/
def bytesFromHex : List Char → Option (List Nat)
  | [] => some []
  | c1 :: c2 :: rest =>
      match hexVal c1, hexVal c2, bytesFromHex rest with
      | some a, some b, some bs => some ((a * 16 + b) :: bs)
      | _, _, _ => none
  | [_] => none

def verifyPublicKeyFormat (pk : String) : Except String Unit :=
  if pk.length ≠ 64 then
    Except.error "public_key must be 32 bytes encoded as 64 hex characters"
  else
    match bytesFromHex pk.data with
    | none => Except.error "public_key must be valid lowercase/uppercase hex"
    | some raw =>
        if raw.length ≠ 32 then Except.error "public_key must decode to exactly 32 bytes"
        else Except.ok ()

def computeIdentityFingerprint (pk : String) : Except String String :=
  match verifyPublicKeyFormat pk with
  | Except.error e => Except.error e
  | Except.ok _ =>
      match bytesFromHex pk.data with
      | some raw => Except.ok (sha256Hex raw)
      | none => Except.error "public_key must be valid lowercase/uppercase hex"

/- ### `verify_exported_lineage` (`core/lineage_verify.py`)

The Ed25519 verifier (`core/lineage_signing.py` `verify_bytes`, backed by
the external `cryptography` package) is a parameter `verifySig :
public_key_hex → message_bytes → signature_hex → Bool`; every theorem
holds for all such verifiers.  The telemetry in `_failure` is dropped. -/

structure VerifyResult where
  verified : Bool
  failure_index : Option Nat
  failure_reason : Option String
  anchor_verified : Bool
deriving DecidableEq

def vfail (index : Option Nat) (reason : String) : VerifyResult :=
  ⟨false, index, some reason, false⟩

def exportEventJson (e : ExportEvent) : Json :=
  Json.obj (JsonFields.cons "action" (Json.str e.action)
    (JsonFields.cons "event_hash" (Json.str e.event_hash)
      (JsonFields.cons "prev_event_hash"
        (match e.prev_event_hash with | none => Json.null | some s => Json.str s)
        (JsonFields.cons "created_at" (Json.str e.created_at) JsonFields.nil))))

def exportEventsJsonList : List ExportEvent → JsonList
  | [] => JsonList.nil
  | e :: rest => JsonList.cons (exportEventJson e) (exportEventsJsonList rest)

def withOptField (name : String) (v : Option String) (fs : JsonFields) : JsonFields :=
  match v with
  | none => fs
  | some s => JsonFields.cons name (Json.str s) fs

/-- `dict(export)` with the `signature` key popped (the signable object). -/
def lineageSignableJson (e : LineageExport) : Json :=
  Json.obj (JsonFields.cons "version" (Json.num e.version)
    (JsonFields.cons "tenant_id" (Json.str e.tenant_id)
      (JsonFields.cons "consent_id" (Json.str e.consent_id)
        (JsonFields.cons "algorithm" (Json.str e.algorithm)
          (JsonFields.cons "canonicalization" (Json.str e.canonicalization)
            (JsonFields.cons "tenant_anchor" (Json.str e.tenant_anchor)
              (JsonFields.cons "events" (Json.arr (exportEventsJsonList e.events))
                (withOptField "signer_identity_fingerprint" e.signer_identity_fingerprint
                  (withOptField "signer_public_key" e.signer_public_key JsonFields.nil)))))))))

/-- The per-event loop of `verify_exported_lineage`; on success returns the
final running `prev_hash`. -/
def checkEvents (tenant consent : String) :
    Option String → Nat → List ExportEvent → Except (Option Nat × String) (Option String)
  | prev, _, [] => Except.ok prev
  | prev, idx, ev :: rest =>
      if ev.event_hash.length ≠ 64 then
        Except.error (some idx, "event_hash must be a 64-character hex string")
      else if (match ev.prev_event_hash with | some pe => decide (pe.length ≠ 64) | none => false) then
        Except.error (some idx, "prev_event_hash must be a 64-character hex string")
      else if ev.prev_event_hash ≠ prev then
        Except.error (some idx, "prev_event_hash does not match chain")
      else
        let material := tenant ++ "|" ++ consent ++ "|" ++ ev.action ++ "|"
          ++ canonicalJson emptyObj ++ "|" ++ prev.getD ""
        let expected := sha256Hex (utf8 material)
        if expected ≠ ev.event_hash then Except.error (some idx, "event_hash mismatch")
        else checkEvents tenant consent (some ev.event_hash) (idx + 1) rest

/-- The structural part of `verify_exported_lineage` after the signature
section (required keys and isinstance checks are vacuous on the
structure model). -/
def verifyLineageBody (e : LineageExport) : VerifyResult :=
  if e.version ≠ 1 then vfail none "unsupported version"
  else if e.algorithm ≠ "SHA256" then vfail none "unsupported algorithm"
  else if e.canonicalization ≠ "sorted-json-no-whitespace" then
    vfail none "unsupported canonicalization"
  else
    match checkEvents e.tenant_id e.consent_id none 0 e.events with
    | Except.error (i, r) => vfail i r
    | Except.ok prev =>
        let expectedAnchor := computeTenantAnchor e.tenant_id (prev.getD "")
        if e.tenant_anchor ≠ expectedAnchor then vfail none "tenant_anchor mismatch"
        else ⟨true, none, none, true⟩

def verifyExportedLineage (verifySig : String → List Nat → String → Bool)
    (e : LineageExport) : VerifyResult :=
  let hasSig := e.signer_identity_fingerprint.isSome || e.signer_public_key.isSome
    || e.signature.isSome
  if hasSig then
    match e.signer_identity_fingerprint, e.signer_public_key, e.signature with
    | some sfp, some spk, some sig =>
        (match computeIdentityFingerprint spk with
         | Except.error _ => vfail none "lineage signer fingerprint mismatch"
         | Except.ok fp =>
             if fp ≠ sfp then vfail none "lineage signer fingerprint mismatch"
             else if ¬ verifySig spk (canonicalJsonBytes (lineageSignableJson e)) sig then
               vfail none "lineage signature verification failed"
             else verifyLineageBody e)
    | _, _, _ => vfail none "incomplete lineage signature fields"
  else verifyLineageBody e

/- ### `verify_anchor_snapshot` (`core/external_anchor.py`) -/

structure AnchorSnapshot where
  version : Int
  generated_at : String
  algorithm : String
  anchor_count : Int
  digest : String
  anchors : List String
deriving DecidableEq

structure SnapshotResult where
  verified : Bool
  failure_reason : Option String
deriving DecidableEq

def verifyAnchorSnapshot (s : AnchorSnapshot) : SnapshotResult :=
  if s.version ≠ 1 then ⟨false, some "unsupported version"⟩
  else if s.algorithm ≠ "SHA256" then ⟨false, some "unsupported algorithm"⟩
  else if s.anchors ≠ sortStrings s.anchors then ⟨false, some "anchors must be sorted"⟩
  else if s.anchor_count ≠ Int.ofNat s.anchors.length then ⟨false, some "anchor_count mismatch"⟩
  else if s.digest ≠ computeAnchorDigest s.anchors then ⟨false, some "digest mismatch"⟩
  else ⟨true, none⟩

/- ### Consent-state derivation and `verify_consent_proof` -/

structure IncludedEvent where
  action : String
  event_hash : String
  created_at : String
deriving DecidableEq

/-- The verifier's `_derive_state` (`core/lineage_verify.py`): an `updated`
while the state is still UNKNOWN, or an unrecognized action, returns
UNKNOWN immediately. -/
def deriveStateGo : String → List IncludedEvent → String
  | state, [] => state
  | state, ev :: rest =>
      if ev.action = "created" then deriveStateGo "ACTIVE" rest
      else if ev.action = "revoked" then deriveStateGo "REVOKED" rest
      else if ev.action = "updated" then
        if state = "ACTIVE" then deriveStateGo "REVOKED" rest
        else if state = "REVOKED" then deriveStateGo "ACTIVE" rest
        else "UNKNOWN"
      else if ev.action = "noop" then deriveStateGo state rest
      else "UNKNOWN"

def deriveState (included : List IncludedEvent) : String :=
  deriveStateGo "UNKNOWN" included

/-- The builder's `_derive_state_from_actions` (`core/consent_proof.py`):
an `updated` while UNKNOWN, or an unrecognized action, sets the state to
UNKNOWN and keeps scanning. -/
def deriveStateFromActionsGo : String → List IncludedEvent → String
  | state, [] => state
  | state, ev :: rest =>
      if ev.action = "created" then deriveStateFromActionsGo "ACTIVE" rest
      else if ev.action = "revoked" then deriveStateFromActionsGo "REVOKED" rest
      else if ev.action = "updated" then
        if state = "ACTIVE" then deriveStateFromActionsGo "REVOKED" rest
        else if state = "REVOKED" then deriveStateFromActionsGo "ACTIVE" rest
        else deriveStateFromActionsGo "UNKNOWN" rest
      else if ev.action = "noop" then deriveStateFromActionsGo state rest
      else deriveStateFromActionsGo "UNKNOWN" rest

def deriveStateFromActions : List IncludedEvent → String
  | [] => "UNKNOWN"
  | ev :: rest => deriveStateFromActionsGo "UNKNOWN" (ev :: rest)

def startsWithChars : List Char → List Char → Bool
  | [], _ => true
  | _ :: _, [] => false
  | a :: as, b :: bs => a = b && startsWithChars as bs

def hasSubstrChars (needle : List Char) : List Char → Bool
  | [] => needle.isEmpty
  | c :: rest => startsWithChars needle (c :: rest) || hasSubstrChars needle rest

/-- Python `needle in hay` on strings. -/
def strContains (hay needle : String) : Bool := hasSubstrChars needle.data hay.data

structure ConsentProof where
  version : Int
  proof_type : String
  tenant_id : String
  consent_id : String
  asserted_at : String
  asserted_state : String
  tenant_anchor : String
  lineage : LineageExport
  included_events : List IncludedEvent
  signer_identity_fingerprint : Option String
  signer_public_key : Option String
  proof_signature : Option String
deriving DecidableEq

structure ProofResult where
  verified : Bool
  derived_state : String
  failure_reason : Option String
deriving DecidableEq

/-- The included-events loop of `verify_consent_proof`.  The
`lineage.events` index is guarded by the preceding length check, so the
out-of-range branch is unreachable. -/
def checkIncluded (assertedAt : Int) (lineageEvents : List ExportEvent) :
    Nat → List IncludedEvent → Option String
  | _, [] => none
  | idx, ev :: rest =>
      match lineageEvents.get? idx with
      | none => some ("included event " ++ Nat.repr idx ++ " does not match lineage")
      | some le =>
          if ¬(ev.action = le.action ∧ ev.event_hash = le.event_hash
              ∧ ev.created_at = le.created_at) then
            some ("included event " ++ Nat.repr idx ++ " does not match lineage")
          else
            match parseRfc3339 ev.created_at with
            | none => some "invalid event timestamp"
            | some t =>
                if assertedAt < t then some "included event is after asserted_at"
                else checkIncluded assertedAt lineageEvents (idx + 1) rest

/-- `core/lineage_verify.py` `verify_consent_proof` (required-key and
isinstance checks are vacuous on the structure model). -/
def verifyConsentProof (verifySig : String → List Nat → String → Bool)
    (p : ConsentProof) : ProofResult :=
  if p.version ≠ 1 then ⟨false, "UNKNOWN", some "unsupported version"⟩
  else if p.proof_type ≠ "CONSENT_STATE_AT_TIME" then
    ⟨false, "UNKNOWN", some "unsupported proof_type"⟩
  else if p.asserted_state ≠ "ACTIVE" ∧ p.asserted_state ≠ "REVOKED" then
    ⟨false, "UNKNOWN", some "invalid asserted_state"⟩
  else
    match parseRfc3339 p.asserted_at with
    | none => ⟨false, "UNKNOWN", some "invalid asserted_at timestamp"⟩
    | some assertedAt =>
      let lineageCheck := verifyExportedLineage verifySig p.lineage
      if ¬ lineageCheck.verified then
        let reason0 := lineageCheck.failure_reason.getD "lineage verification failed"
        let reason := if strContains reason0 "signature" then
          "lineage signature verification failed" else reason0
        ⟨false, "UNKNOWN", some reason⟩
      else if ¬ lineageCheck.anchor_verified then
        ⟨false, "UNKNOWN", some "tenant anchor verification failed"⟩
      else if p.tenant_anchor ≠ p.lineage.tenant_anchor then
        ⟨false, "UNKNOWN", some "proof tenant_anchor mismatch"⟩
      else if p.lineage.tenant_id ≠ p.tenant_id then
        ⟨false, "UNKNOWN", some "tenant mismatch between proof and lineage"⟩
      else if p.lineage.consent_id ≠ p.consent_id then
        ⟨false, "UNKNOWN", some "consent mismatch between proof and lineage"⟩
      else if p.included_events.length = 0 then
        ⟨false, "UNKNOWN", some "included_events cannot be empty"⟩
      else if p.lineage.events.length < p.included_events.length then
        ⟨false, "UNKNOWN", some "included_events exceeds lineage length"⟩
      else
        match checkIncluded assertedAt p.lineage.events 0 p.included_events with
        | some reason => ⟨false, "UNKNOWN", some reason⟩
        | none =>
          let tailReason :=
            if p.included_events.length < p.lineage.events.length then
              match p.lineage.events.get? p.included_events.length with
              | some nextEv =>
                  match parseRfc3339 nextEv.created_at with
                  | some nt =>
                      if nt ≤ assertedAt then
                        some "included_events is incomplete for asserted_at"
                      else none
                  | none => none
              | none => none
            else none
          match tailReason with
          | some reason => ⟨false, "UNKNOWN", some reason⟩
          | none =>
            let derived := deriveState p.included_events
            if derived ≠ "ACTIVE" ∧ derived ≠ "REVOKED" then
              ⟨false, "UNKNOWN", some "unable to derive state from included_events"⟩
            else if derived ≠ p.asserted_state then
              ⟨false, derived, some "asserted_state mismatch"⟩
            else
              let hasSig := p.signer_identity_fingerprint.isSome
                || p.signer_public_key.isSome || p.proof_signature.isSome
              if hasSig then
                match p.signer_identity_fingerprint, p.signer_public_key, p.proof_signature with
                | some sfp, some spk, some psig =>
                    if ¬(p.lineage.signer_identity_fingerprint.isSome
                        && p.lineage.signer_public_key.isSome && p.lineage.signature.isSome) then
                      ⟨false, derived, some "signed proof requires signed lineage"⟩
                    else if sfp ≠ (p.lineage.signer_identity_fingerprint.getD "") then
                      ⟨false, derived, some "proof and lineage signer mismatch"⟩
                    else if spk ≠ (p.lineage.signer_public_key.getD "") then
                      ⟨false, derived, some "proof and lineage signer mismatch"⟩
                    else
                      match computeIdentityFingerprint spk with
                      | Except.error _ => ⟨false, derived, some "proof signer fingerprint mismatch"⟩
                      | Except.ok fp =>
                          if fp ≠ sfp then ⟨false, derived, some "proof signer fingerprint mismatch"⟩
                          else
                            let includedRoot :=
                              ((p.included_events.getLast?).map (fun e => e.event_hash)).getD ""
                            let signable := Json.obj
                              (JsonFields.cons "asserted_at" (Json.str p.asserted_at)
                                (JsonFields.cons "asserted_state" (Json.str p.asserted_state)
                                  (JsonFields.cons "lineage_root_hash" (Json.str includedRoot)
                                    (JsonFields.cons "signer_identity_fingerprint" (Json.str sfp)
                                      (JsonFields.cons "signer_public_key" (Json.str spk)
                                        JsonFields.nil)))))
                            if ¬ verifySig spk (canonicalJsonBytes signable) psig then
                              ⟨false, derived, some "proof signature verification failed"⟩
                            else ⟨true, derived, none⟩
                | _, _, _ => ⟨false, derived, some "incomplete proof signature fields"⟩
              else ⟨true, derived, none⟩

/- ### Delegation chain verification (`core/delegation_verify.py`)

`_delegation_failure` emits telemetry and returns `False`; the telemetry
is dropped, so a failed check is `Except.ok false`.  The two bare
`compute_identity_fingerprint` calls are outside any `try`, so a raised
`ValueError` propagates: `Except.error`.  The Ed25519
`verify_delegation` (which catches all exceptions itself) is the
parameter `verifyDeleg`. -/

instance : DecidableEq (Except String Bool) := fun a b =>
  match a, b with
  | Except.error x, Except.error y =>
      if h : x = y then isTrue (by rw [h]) else isFalse (by intro hc; cases hc; exact h rfl)
  | Except.ok x, Except.ok y =>
      if h : x = y then isTrue (by rw [h]) else isFalse (by intro hc; cases hc; exact h rfl)
  | Except.error _, Except.ok _ => isFalse (by intro hc; cases hc)
  | Except.ok _, Except.error _ => isFalse (by intro hc; cases hc)

structure Delegation where
  parent_fingerprint : String
  child_fingerprint : String
  delegation_type : String
  parent_public_key : String
  child_public_key : String
  signature : String
  created_at : String
deriving DecidableEq

/-- `core/delegation_crypto.py` `canonical_delegation_message`. -/
def canonicalDelegationMessage (parentFp childFp dtype : String) : List Nat :=
  utf8 (canonicalJson (Json.obj
    (JsonFields.cons "parent_fingerprint" (Json.str parentFp)
      (JsonFields.cons "child_fingerprint" (Json.str childFp)
        (JsonFields.cons "delegation_type" (Json.str dtype) JsonFields.nil)))))

def lookupChildren (m : List (String × List String)) (k : String) : List String :=
  match m.find? (fun q => q.1 = k) with
  | some q => q.2
  | none => []

def addChild : List (String × List String) → String → String → List (String × List String)
  | [], p, c => [(p, [c])]
  | (k, cs) :: rest, p, c =>
      if k = p then (k, if c ∈ cs then cs else cs ++ [c]) :: rest
      else (k, cs) :: addChild rest p c

def sumChildren (m : List (String × List String)) : Nat :=
  (m.map (fun q => q.2.length)).sum

/-- The DFS of `_would_create_cycle`; each step pops one stack entry and
pushes children only for unseen nodes, so `1 + sumChildren` steps bound
every run the source can take. -/
def dfsReach (children : List (String × List String)) (target : String) :
    Nat → List String → List String → Bool
  | 0, _, _ => false
  | _ + 1, [], _ => false
  | fuel + 1, node :: stack, seen =>
      if node = target then true
      else if node ∈ seen then dfsReach children target fuel stack seen
      else dfsReach children target fuel (lookupChildren children node ++ stack) (node :: seen)

def wouldCreateCycle (children : List (String × List String)) (parent child : String) : Bool :=
  if parent = child then true
  else dfsReach children parent (1 + sumChildren children + children.length) [child] []

def delegationLoop (verifyDeleg : String → List Nat → String → Bool) :
    List String → List (String × List String) → Option Int → List Delegation →
      Except String Bool
  | _, _, _, [] => Except.ok true
  | reachable, children, lastTime, d :: rest =>
      match parseRfc3339 d.created_at with
      | none => Except.ok false
      | some t =>
          if (match lastTime with | some lt => decide (t < lt) | none => false) then Except.ok false
          else
            match computeIdentityFingerprint d.parent_public_key with
            | Except.error e => Except.error e
            | Except.ok pfp =>
                if pfp ≠ d.parent_fingerprint then Except.ok false
                else
                  match computeIdentityFingerprint d.child_public_key with
                  | Except.error e => Except.error e
                  | Except.ok cfp =>
                      if cfp ≠ d.child_fingerprint then Except.ok false
                      else if ¬(d.parent_fingerprint ∈ reachable) then Except.ok false
                      else if wouldCreateCycle children d.parent_fingerprint
                          d.child_fingerprint then Except.ok false
                      else if ¬ verifyDeleg d.parent_public_key
                          (canonicalDelegationMessage d.parent_fingerprint d.child_fingerprint
                            d.delegation_type) d.signature then Except.ok false
                      else delegationLoop verifyDeleg (reachable ++ [d.child_fingerprint])
                        (addChild children d.parent_fingerprint d.child_fingerprint)
                        (some t) rest

def verifyDelegationChain (verifyDeleg : String → List Nat → String → Bool)
    (delegations : List Delegation) (rootFp : String) : Except String Bool :=
  delegationLoop verifyDeleg [rootFp] [] none delegations

/- ### Auxiliary definitions for the stated properties -/

/-- Replay a sequence of mutations through `add_lineage_event`; each step
is an action together with the wall-clock reading (µs) at the append. -/
def replayLineage (c : ConsentRow) (steps : List (String × Nat)) : List DBLineageEvent :=
  steps.foldl (fun db s => addLineageEvent db c s.1 s.2) []

def createdAts (db : List DBLineageEvent) : List Nat := db.map (fun e => e.created_at)

/-- `created_at` strictly increases along the stream. -/
def StrictlyIncreasing (db : List DBLineageEvent) : Prop :=
  List.Chain' (fun a b => a < b) (createdAts db)

/-- Replace the character at one position. -/
def setAt : List Char → Nat → Char → List Char
  | [], _, _ => []
  | _ :: rest, 0, c => c :: rest
  | x :: rest, n + 1, c => x :: setAt rest n c

/-- `t` is `s` with exactly one character changed (to a different one). -/
def OneCharChange (s t : String) : Prop :=
  ∃ i c, i < s.data.length ∧ s.data.get? i ≠ some c ∧ t.data = setAt s.data i c

/-- Tamper helper: replace event `j`'s `event_hash`. -/
def setEvHash : List ExportEvent → Nat → String → List ExportEvent
  | [], _, _ => []
  | ev :: rest, 0, h => { ev with event_hash := h } :: rest
  | ev :: rest, j + 1, h => ev :: setEvHash rest j h

/-- Tamper helper: replace event `j`'s `prev_event_hash`. -/
def setEvPrev : List ExportEvent → Nat → Option String → List ExportEvent
  | [], _, _ => []
  | ev :: rest, 0, p => { ev with prev_event_hash := p } :: rest
  | ev :: rest, j + 1, p => ev :: setEvPrev rest j p

/-- The hash the running `prev_hash` holds after traversing a chain
segment (the lineage root when started from `none` on the full list). -/
def chainRoot (prev : Option String) : List ExportEvent → Option String
  | [] => prev
  | e :: rest => chainRoot (some e.event_hash) rest

/-- Guard for the state-derivation agreement: actions drawn from the
valid set, with any `updated` preceded by a `created` or `revoked`
(`known` records whether the state is already ACTIVE/REVOKED). -/
def okActions : Bool → List IncludedEvent → Bool
  | _, [] => true
  | known, ev :: rest =>
      if ev.action = "created" then okActions true rest
      else if ev.action = "revoked" then okActions true rest
      else if ev.action = "updated" then known && okActions true rest
      else if ev.action = "noop" then okActions known rest
      else false

mutual
/-- All string content (values and keys) is ASCII (code points ≤ 0x7E),
the region where `ensure_ascii` makes no difference. -/
def asciiJson : Json → Bool
  | Json.null => true
  | Json.bool _ => true
  | Json.num _ => true
  | Json.str s => s.data.all (fun c => decide (c.toNat ≤ 126))
  | Json.arr xs => asciiList xs
  | Json.obj fs => asciiFields fs

def asciiList : JsonList → Bool
  | JsonList.nil => true
  | JsonList.cons x rest => asciiJson x && asciiList rest

def asciiFields : JsonFields → Bool
  | JsonFields.nil => true
  | JsonFields.cons k v rest =>
      k.data.all (fun c => decide (c.toNat ≤ 126)) && asciiJson v && asciiFields rest
end

/- Concrete inputs used by the witnesses and counterexamples. -/

def sampleConsent : ConsentRow := ⟨"t", "c", "u", "email", "ACTIVE"⟩

def sampleDb : List DBLineageEvent :=
  addLineageEvent (addLineageEvent [] sampleConsent "created" 1700000000000000)
    sampleConsent "revoked" 1700000000000000

def sampleExport : LineageExport := exportConsentLineage "t" "c" sampleDb

def defaultExportEvent : ExportEvent := ⟨"", "", none, ""⟩

def sampleEv0 : ExportEvent := (sampleExport.events.get? 0).getD defaultExportEvent

def sampleEv1 : ExportEvent := (sampleExport.events.get? 1).getD defaultExportEvent

def samplePrev1 : String := (sampleEv1.prev_event_hash).getD ""

/-- Replace the first character with `'z'` (never a hex digit). -/
def flipToZ (s : String) : String := ⟨setAt s.data 0 'z'⟩

def trivialSig : String → List Nat → String → Bool := fun _ _ _ => true

def sampleSnapshot : AnchorSnapshot :=
  { version := 1
    generated_at := "2026-01-01T00:00:00Z"
    algorithm := "SHA256"
    anchor_count := 1
    digest := computeAnchorDigest [computeTenantAnchor "t" ""]
    anchors := [computeTenantAnchor "t" ""] }

/-- An export that fails verification for a reason other than the events
(unsupported version), with no events at all. -/
def badVersionLineage : LineageExport :=
  { version := 2
    tenant_id := "t"
    consent_id := "c"
    algorithm := "SHA256"
    canonicalization := "sorted-json-no-whitespace"
    tenant_anchor := "x"
    events := []
    signer_identity_fingerprint := none
    signer_public_key := none
    signature := none }

/-- A proof with empty `included_events` embedding an invalid lineage. -/
def emptyIncludedBadLineageProof : ConsentProof :=
  { version := 1
    proof_type := "CONSENT_STATE_AT_TIME"
    tenant_id := "t"
    consent_id := "c"
    asserted_at := "2026-01-01T00:00:00Z"
    asserted_state := "ACTIVE"
    tenant_anchor := "x"
    lineage := badVersionLineage
    included_events := []
    signer_identity_fingerprint := none
    signer_public_key := none
    proof_signature := none }

/-- The zero-event export the code itself builds for tenant `t`. -/
def emptyExportT : LineageExport := exportConsentLineage "t" "c" []

/-- A proof with empty `included_events` embedding a valid lineage. -/
def emptyIncludedGoodLineageProof : ConsentProof :=
  { version := 1
    proof_type := "CONSENT_STATE_AT_TIME"
    tenant_id := "t"
    consent_id := "c"
    asserted_at := "2026-01-01T00:00:00Z"
    asserted_state := "ACTIVE"
    tenant_anchor := emptyExportT.tenant_anchor
    lineage := emptyExportT
    included_events := []
    signer_identity_fingerprint := none
    signer_public_key := none
    proof_signature := none }

def nonAsciiBody : Json := Json.obj (JsonFields.cons "a" (Json.str "é") JsonFields.nil)

def asciiBody : Json := Json.obj (JsonFields.cons "a" (Json.str "b") JsonFields.nil)

def malformedKeyDelegation : Delegation :=
  { parent_fingerprint := "pf"
    child_fingerprint := "cf"
    delegation_type := "rotation"
    parent_public_key := "zzzzzzzzzzzzzzzzzzzzzzzzzzzzzzzzzzzzzzzzzzzzzzzzzzzzzzzzzzzzzzzz"
    child_public_key := "cccccccccccccccccccccccccccccccccccccccccccccccccccccccccccccccc"
    signature := "sig"
    created_at := "2026-02-25T00:00:00Z" }

set_option maxRecDepth 40000

/- ## Theorems -/

/- ### General helper lemmas -/

theorem natToHexFixed_length (w : Nat) : ∀ n, (natToHexFixed w n).length = w := by
  induction w with
  | zero => intro n; rfl
  | succ k ih => intro n; simp [natToHexFixed, ih]

theorem sha256Hex_length (msg : List Nat) : (sha256Hex msg).length = 64 := by
  show (natToHexFixed 64 (sha256Nat msg)).length = 64
  exact natToHexFixed_length 64 _

theorem setAt_length (c : Char) : ∀ (l : List Char) (i : Nat), (setAt l i c).length = l.length := by
  intro l
  induction l with
  | nil => intro i; rfl
  | cons x rest ih =>
      intro i
      cases i with
      | zero => rfl
      | succ j => simp [setAt, ih]

theorem setAt_get (c : Char) : ∀ (l : List Char) (i : Nat), i < l.length →
    (setAt l i c).get? i = some c := by
  intro l
  induction l with
  | nil => intro i h; simp at h
  | cons x rest ih =>
      intro i h
      cases i with
      | zero => rfl
      | succ j =>
          show (setAt rest j c).get? j = some c
          exact ih j (by simpa using h)

theorem oneCharChange_ne {s t : String} (h : OneCharChange s t) : t ≠ s := by
  obtain ⟨i, c, hi, hget, hdata⟩ := h
  intro he
  rw [he] at hdata
  apply hget
  nth_rewrite 1 [hdata]
  exact setAt_get c s.data i hi

theorem oneCharChange_length {s t : String} (h : OneCharChange s t) : t.length = s.length := by
  obtain ⟨i, c, _, _, hdata⟩ := h
  show t.data.length = s.data.length
  rw [hdata, setAt_length]

/- ### Claim C3 -/

/-- Claim C3: the frozen constants of spec scenario S7 — the event hash of
`{tenant_id:"t", consent_id:"c", action:"created", payload:{}}` with a null
previous hash, the tenant anchor of `("tenant-1", "a"*64)`, and the anchor
digest of `["b"*64, "a"*64]` equal the published hex digests. -/
theorem frozen_constants :
    computeEventHash ⟨"t", "c", "created", emptyObj⟩ none =
      "add0bc7b3376b67b13d04e96d6bb89e717f5c62ddc3b972bb349fdc8cce69a2b" ∧
    computeTenantAnchor "tenant-1"
      "aaaaaaaaaaaaaaaaaaaaaaaaaaaaaaaaaaaaaaaaaaaaaaaaaaaaaaaaaaaaaaaa" =
      "a13e2793c9b48461b84689417e3ff76db66c8d1b597ab7cff88ebbfbca8e821f" ∧
    computeAnchorDigest
      ["bbbbbbbbbbbbbbbbbbbbbbbbbbbbbbbbbbbbbbbbbbbbbbbbbbbbbbbbbbbbbbbb",
       "aaaaaaaaaaaaaaaaaaaaaaaaaaaaaaaaaaaaaaaaaaaaaaaaaaaaaaaaaaaaaaaa"] =
      "5e9ae866add9a85d69c3481d059bb9f158a39e5670ba11f95112fc409630894e" :=
  ⟨by decide, by decide, by decide⟩

/- ### Claim C5 -/

/-- Claim C5 (code bug evidence): on a delegation whose
`parent_public_key` is 64 non-hex characters, `verify_delegation_chain`
does not return `false` — the bare `compute_identity_fingerprint` call
raises `ValueError`, which propagates to the caller (for every signature
verifier, since the raise happens before signature checking). -/
theorem malformed_delegation_key_raises :
    ∀ vd, verifyDelegationChain vd [malformedKeyDelegation] "pf" =
      Except.error "public_key must be valid lowercase/uppercase hex" := by
  intro vd
  rfl

/- ### Claim C10 -/

/-- Claim C10 counterexample: the builder's and the verifier's state
derivations disagree on `[updated, created]` — the builder scans past the
`updated`-at-UNKNOWN and returns ACTIVE, the verifier stops and returns
UNKNOWN. -/
theorem derive_state_functions_differ :
    deriveStateFromActions [⟨"updated", "h1", "t1"⟩, ⟨"created", "h2", "t2"⟩] = "ACTIVE" ∧
    deriveState [⟨"updated", "h1", "t1"⟩, ⟨"created", "h2", "t2"⟩] = "UNKNOWN" ∧
    ("ACTIVE" : String) ≠ "UNKNOWN" :=
  ⟨by decide, by decide, by decide⟩

theorem deriveGo_agree : ∀ (evs : List IncludedEvent) (s : String) (known : Bool),
    (known = true → s = "ACTIVE" ∨ s = "REVOKED") → (known = false → s = "UNKNOWN") →
    okActions known evs = true → deriveStateFromActionsGo s evs = deriveStateGo s evs := by
  intro evs
  induction evs with
  | nil => intro s known _ _ _; rfl
  | cons ev rest ih =>
      intro s known hk hn hok
      by_cases hc : ev.action = "created"
      · have hok' : okActions true rest = true := by simpa [okActions, hc] using hok
        simp [deriveStateFromActionsGo, deriveStateGo, hc]
        exact ih "ACTIVE" true (fun _ => Or.inl rfl) (fun h => by cases h) hok'
      · by_cases hr : ev.action = "revoked"
        · have hok' : okActions true rest = true := by simpa [okActions, hc, hr] using hok
          simp [deriveStateFromActionsGo, deriveStateGo, hc, hr]
          exact ih "REVOKED" true (fun _ => Or.inr rfl) (fun h => by cases h) hok'
        · by_cases hu : ev.action = "updated"
          · have hok' : known = true ∧ okActions true rest = true := by
              have := hok
              simp [okActions, hc, hr, hu] at this
              exact this
            rcases hk hok'.1 with hA | hR
            · subst hA
              simp [deriveStateFromActionsGo, deriveStateGo, hc, hr, hu]
              exact ih "REVOKED" true (fun _ => Or.inr rfl) (fun h => by cases h) hok'.2
            · subst hR
              simp [deriveStateFromActionsGo, deriveStateGo, hc, hr, hu]
              exact ih "ACTIVE" true (fun _ => Or.inl rfl) (fun h => by cases h) hok'.2
          · by_cases hno : ev.action = "noop"
            · have hok' : okActions known rest = true := by
                simpa [okActions, hc, hr, hu, hno] using hok
              simp [deriveStateFromActionsGo, deriveStateGo, hc, hr, hu, hno]
              exact ih s known hk hn hok'
            · exfalso
              have := hok
              simp [okActions, hc, hr, hu, hno] at this

/-- Claim C10 (corrected): the two derivations agree on every event list
whose actions are drawn from {created, updated, revoked, noop} and in
which every `updated` is preceded by a `created` or `revoked` (the
`okActions false` guard); outside the guard they can differ. -/
theorem derive_state_agreement_on_guarded_actions :
    ∀ evs : List IncludedEvent, okActions false evs = true →
      deriveStateFromActions evs = deriveState evs := by
  intro evs h
  cases evs with
  | nil => rfl
  | cons e rest =>
      show deriveStateFromActionsGo "UNKNOWN" (e :: rest) = deriveStateGo "UNKNOWN" (e :: rest)
      exact deriveGo_agree (e :: rest) "UNKNOWN" false (fun h => by cases h) (fun _ => rfl) h

/-- Witness for the corrected C10 at a concrete guarded list. -/
theorem derive_state_agreement_witness :
    okActions false [⟨"created", "h", "t"⟩, ⟨"updated", "h2", "t2"⟩] = true ∧
    deriveStateFromActions [⟨"created", "h", "t"⟩, ⟨"updated", "h2", "t2"⟩] =
      deriveState [⟨"created", "h", "t"⟩, ⟨"updated", "h2", "t2"⟩] :=
  ⟨by decide, derive_state_agreement_on_guarded_actions _ (by decide)⟩

/- ### Claim C9 -/

/-- Claim C9: `verify_exported_lineage` accepts the unsigned zero-event
export — for every tenant and consent id, version 1, SHA256,
sorted-json-no-whitespace, `events = []`, and
`tenant_anchor = compute_tenant_anchor(tenant_id, "")` yield
`verified = true` and `anchor_verified = true` (for every signature
verifier, which is never consulted on an unsigned export). -/
theorem empty_lineage_export_verifies :
    ∀ (vs : String → List Nat → String → Bool) (tenant consent : String),
      verifyExportedLineage vs
        ⟨1, tenant, consent, "SHA256", "sorted-json-no-whitespace",
          computeTenantAnchor tenant "", [], none, none, none⟩ =
        ⟨true, none, none, true⟩ := by
  intro vs tenant consent
  unfold verifyExportedLineage verifyLineageBody checkEvents
  simp

/- ### Claim C7 -/

theorem foldl_pickTip_last : ∀ (l : List DBLineageEvent) (t : DBLineageEvent),
    List.Chain' (fun a b : DBLineageEvent => a.created_at < b.created_at) (t :: l) →
    List.foldl pickTip (some t) l = (t :: l).getLast? := by
  intro l
  induction l with
  | nil => intro t _; rfl
  | cons e rest ih =>
      intro t hch
      obtain ⟨hR, hch'⟩ := List.chain'_cons.mp hch
      show List.foldl pickTip (pickTip (some t) e) rest = _
      have hpick : pickTip (some t) e = some e := by
        simp [pickTip, if_pos (Or.inl hR)]
      rw [hpick, ih e hch', List.getLast?_cons_cons]

theorem tipEvent_eq_getLast (db : List DBLineageEvent) (h : StrictlyIncreasing db) :
    tipEvent db = db.getLast? := by
  cases db with
  | nil => rfl
  | cons d l =>
      have h' : List.Chain' (fun a b : DBLineageEvent => a.created_at < b.created_at) (d :: l) :=
        (List.chain'_map _).mp h
      show List.foldl pickTip (pickTip none d) l = _
      exact foldl_pickTip_last l d h'

theorem newLineageEvent_created (db : List DBLineageEvent) (c : ConsentRow) (a : String)
    (now : Nat) (t : DBLineageEvent) (h : tipEvent db = some t) :
    (newLineageEvent db c a now).created_at = max now (t.created_at + 1) := by
  have hcreated : (newLineageEvent db c a now).created_at =
      if now ≤ t.created_at then t.created_at + 1 else now := by
    have hstep : (newLineageEvent db c a now).created_at =
        (match tipEvent db with
         | some p => if now ≤ p.created_at then p.created_at + 1 else now
         | none => now) := rfl
    rw [hstep, h]
  rw [hcreated]
  by_cases hle : now ≤ t.created_at
  · rw [if_pos hle]; omega
  · rw [if_neg hle]; omega

theorem addLineageEvent_strict (db : List DBLineageEvent) (c : ConsentRow) (a : String)
    (now : Nat) (h : StrictlyIncreasing db) : StrictlyIncreasing (addLineageEvent db c a now) := by
  have hmap : createdAts (addLineageEvent db c a now) =
      createdAts db ++ [(newLineageEvent db c a now).created_at] := by
    simp [addLineageEvent, createdAts]
  show List.Chain' _ _
  rw [hmap, List.chain'_append]
  refine ⟨h, List.chain'_singleton _, ?_⟩
  intro x hx y hy
  have hy' : (newLineageEvent db c a now).created_at = y := by simpa using hy
  subst hy'
  rw [createdAts, List.getLast?_map] at hx
  cases hge : db.getLast? with
  | none => rw [hge] at hx; cases hx
  | some e =>
      rw [hge] at hx
      have hxe : e.created_at = x := by simpa using hx
      subst hxe
      have htip : tipEvent db = some e := by rw [tipEvent_eq_getLast db h, hge]
      rw [newLineageEvent_created db c a now e htip]
      omega

theorem replayLineage_strict (c : ConsentRow) (steps : List (String × Nat)) :
    StrictlyIncreasing (replayLineage c steps) := by
  have h : ∀ (l : List (String × Nat)) (db : List DBLineageEvent), StrictlyIncreasing db →
      StrictlyIncreasing (List.foldl (fun db s => addLineageEvent db c s.1 s.2) db l) := by
    intro l
    induction l with
    | nil => intro db hdb; exact hdb
    | cons s rest ih => intro db hdb; exact ih _ (addLineageEvent_strict db c s.1 s.2 hdb)
  exact h steps [] (by simp [StrictlyIncreasing, createdAts])

/-- Claim C7: when a tip event exists, `add_lineage_event` stamps the new
event with `created_at = max(now, tip.created_at + 1µs)`, and every
sequence of appends through `add_lineage_event` leaves the per-consent
stream with strictly increasing `created_at`. -/
theorem created_at_monotonic :
    (∀ (db : List DBLineageEvent) (c : ConsentRow) (a : String) (now : Nat)
        (t : DBLineageEvent), tipEvent db = some t →
      (newLineageEvent db c a now).created_at = max now (t.created_at + 1)) ∧
    (∀ (c : ConsentRow) (steps : List (String × Nat)),
      StrictlyIncreasing (replayLineage c steps)) :=
  ⟨newLineageEvent_created, replayLineage_strict⟩

/-- Witness for C7 at a one-event stream with a stalled clock. -/
theorem created_at_monotonic_witness :
    tipEvent [(⟨0, "created", "", none, 5⟩ : DBLineageEvent)] = some ⟨0, "created", "", none, 5⟩ ∧
    (newLineageEvent [(⟨0, "created", "", none, 5⟩ : DBLineageEvent)]
        sampleConsent "noop" 3).created_at = max 3 (5 + 1) :=
  ⟨by decide, created_at_monotonic.1 _ sampleConsent "noop" 3
    ⟨0, "created", "", none, 5⟩ (by decide)⟩

/- ### Claim C8 -/

theorem charListLe_total : ∀ a b : List Char, charListLe a b = true ∨ charListLe b a = true := by
  intro a
  induction a with
  | nil => intro b; left; rfl
  | cons x as ih =>
      intro b
      cases b with
      | nil => right; rfl
      | cons y bs =>
          by_cases h1 : x.toNat < y.toNat
          · left; simp [charListLe, h1]
          · by_cases h2 : y.toNat < x.toNat
            · right; simp [charListLe, h2]
            · rcases ih bs with h | h
              · left; simp [charListLe, h1, h2, h]
              · right; simp [charListLe, h1, h2, h]

theorem charListLe_trans : ∀ a b c : List Char, charListLe a b = true → charListLe b c = true →
    charListLe a c = true := by
  intro a
  induction a with
  | nil => intro b c _ _; rfl
  | cons x as ih =>
      intro b c hab hbc
      cases b with
      | nil => simp [charListLe] at hab
      | cons y bs =>
          cases c with
          | nil => simp [charListLe] at hbc
          | cons z cs =>
              simp only [charListLe] at hab hbc ⊢
              by_cases h1 : x.toNat < y.toNat
              · by_cases h2 : y.toNat < z.toNat
                · simp [show x.toNat < z.toNat by omega]
                · by_cases h3 : z.toNat < y.toNat
                  · rw [if_neg h2, if_pos h3] at hbc; exact absurd hbc (by simp)
                  · simp [show x.toNat < z.toNat by omega]
              · by_cases h4 : y.toNat < x.toNat
                · rw [if_pos h4] at hab
                  rw [if_neg h1] at hab
                  exact absurd hab (by simp)
                · rw [if_neg h1, if_neg h4] at hab
                  by_cases h2 : y.toNat < z.toNat
                  · simp [show x.toNat < z.toNat by omega]
                  · by_cases h3 : z.toNat < y.toNat
                    · rw [if_neg h2, if_pos h3] at hbc; exact absurd hbc (by simp)
                    · rw [if_neg h2, if_neg h3] at hbc
                      rw [if_neg (show ¬x.toNat < z.toNat by omega),
                        if_neg (show ¬z.toNat < x.toNat by omega)]
                      exact ih bs cs hab hbc

theorem charEq_of_toNat {x y : Char} (h : x.toNat = y.toNat) : x = y := by
  apply Char.eq_of_val_eq
  apply UInt32.eq_of_toBitVec_eq
  apply BitVec.eq_of_toNat_eq
  exact h

theorem charListLe_antisymm : ∀ a b : List Char, charListLe a b = true →
    charListLe b a = true → a = b := by
  intro a
  induction a with
  | nil =>
      intro b _ h2
      cases b with
      | nil => rfl
      | cons y bs => simp [charListLe] at h2
  | cons x as ih =>
      intro b h1 h2
      cases b with
      | nil => simp [charListLe] at h1
      | cons y bs =>
          by_cases hxy : x.toNat < y.toNat
          · simp [charListLe, hxy, show ¬y.toNat < x.toNat by omega] at h2
          · by_cases hyx : y.toNat < x.toNat
            · simp [charListLe, hxy, hyx] at h1
            · have hchar : x = y := charEq_of_toNat (by omega)
              have h1' : charListLe as bs = true := by simpa [charListLe, hxy, hyx] using h1
              have h2' : charListLe bs as = true := by simpa [charListLe, hxy, hyx] using h2
              rw [hchar, ih bs h1' h2']

theorem insertStr_eq (s : String) : ∀ l, insertStr s l =
    List.orderedInsert (fun a b => strLe a b = true) s l := by
  intro l
  induction l with
  | nil => rfl
  | cons t rest ih =>
      by_cases h : strLe s t = true
      · simp [insertStr, List.orderedInsert, h]
      · simp [insertStr, List.orderedInsert, h, ih]

theorem sortStrings_eq : ∀ l, sortStrings l =
    List.insertionSort (fun a b => strLe a b = true) l := by
  intro l
  induction l with
  | nil => rfl
  | cons s rest ih => simp [sortStrings, List.insertionSort, ih, insertStr_eq]

/-- Claim C8: `compute_anchor_digest` is invariant under permutation of
its input list — the function sorts its input before joining with a
newline and hashing. -/
theorem anchor_digest_perm_invariant :
    ∀ l₁ l₂ : List String, l₁.Perm l₂ → computeAnchorDigest l₁ = computeAnchorDigest l₂ := by
  intro l₁ l₂ hp
  have hs : sortStrings l₁ = sortStrings l₂ := by
    rw [sortStrings_eq, sortStrings_eq]
    letI : IsTotal String (fun a b => strLe a b = true) :=
      ⟨fun a b => charListLe_total a.data b.data⟩
    letI : IsTrans String (fun a b => strLe a b = true) :=
      ⟨fun a b c => charListLe_trans a.data b.data c.data⟩
    letI : IsAntisymm String (fun a b => strLe a b = true) :=
      ⟨fun a b h1 h2 => by
        cases a; cases b
        exact congrArg String.mk (charListLe_antisymm _ _ h1 h2)⟩
    exact List.eq_of_perm_of_sorted
      ((List.perm_insertionSort _ _).trans (hp.trans (List.perm_insertionSort _ _).symm))
      (List.sorted_insertionSort _ _) (List.sorted_insertionSort _ _)
  unfold computeAnchorDigest
  rw [hs]

/-- Witness for C8 at a concrete two-element permutation. -/
theorem anchor_digest_perm_invariant_witness :
    (["b", "a"] : List String).Perm ["a", "b"] ∧
    computeAnchorDigest ["b", "a"] = computeAnchorDigest ["a", "b"] :=
  ⟨by decide, anchor_digest_perm_invariant _ _ (by decide)⟩

/- ### Claim C6 -/

theorem escapeChar_agree (c : Char) (h : c.toNat ≤ 126) : escapeChar true c = escapeChar false c := by
  have hd : decide (126 < c.toNat) = false := by simp; omega
  simp [escapeChar, hd]

theorem quote_agree (s : String) (h : s.data.all (fun c => decide (c.toNat ≤ 126)) = true) :
    quoteJsonString true s = quoteJsonString false s := by
  unfold quoteJsonString
  have hmap : s.data.map (escapeChar true) = s.data.map (escapeChar false) := by
    apply List.map_congr_left
    intro c hc
    have := List.all_eq_true.mp h c hc
    exact escapeChar_agree c (by simpa using this)
  rw [hmap]

theorem mem_insertPair (p q : String × String) : ∀ l, p ∈ insertPair q l → p = q ∨ p ∈ l := by
  intro l
  induction l with
  | nil => intro h; simpa [insertPair] using h
  | cons r rest ih =>
      intro h
      by_cases hle : strLe q.1 r.1 = true
      · simp [insertPair, hle] at h
        rcases h with h | h | h
        · exact Or.inl h
        · exact Or.inr (by simp [h])
        · exact Or.inr (by simp [h])
      · simp only [insertPair, hle] at h
        rcases (by simpa using h : p = r ∨ p ∈ insertPair q rest) with h' | h'
        · exact Or.inr (by simp [h'])
        · rcases ih h' with h'' | h''
          · exact Or.inl h''
          · exact Or.inr (by simp [h''])

theorem mem_sortPairs (p : String × String) : ∀ l, p ∈ sortPairs l → p ∈ l := by
  intro l
  induction l with
  | nil => intro h; simp [sortPairs] at h
  | cons q rest ih =>
      intro h
      rcases mem_insertPair p q (sortPairs rest) h with h' | h'
      · simp [h']
      · exact List.mem_cons_of_mem _ (ih h')

theorem joinObjPairs_agree :
    ∀ l : List (String × String),
      (∀ p ∈ l, (p.1 : String).data.all (fun c => decide (c.toNat ≤ 126)) = true) →
      joinObjPairs true l = joinObjPairs false l := by
  intro l
  induction l with
  | nil => intro _; rfl
  | cons p rest ih =>
      intro h
      have hp : p.1.data.all (fun c => decide (c.toNat ≤ 126)) = true := h p (by simp)
      have hq := quote_agree p.1 hp
      cases rest with
      | nil =>
          show quoteJsonString true p.1 ++ ":" ++ p.2 = quoteJsonString false p.1 ++ ":" ++ p.2
          rw [hq]
      | cons r rs =>
          have hrest : joinObjPairs true (r :: rs) = joinObjPairs false (r :: rs) :=
            ih (fun q hqmem => h q (List.mem_cons_of_mem _ hqmem))
          show quoteJsonString true p.1 ++ ":" ++ p.2 ++ "," ++ joinObjPairs true (r :: rs) =
            quoteJsonString false p.1 ++ ":" ++ p.2 ++ "," ++ joinObjPairs false (r :: rs)
          rw [hq, hrest]

theorem dumpsFields_keys_ascii (ea : Bool) :
    ∀ fs, asciiFields fs = true →
      ∀ p ∈ dumpsFields ea fs, (p.1 : String).data.all (fun c => decide (c.toNat ≤ 126)) = true
  | JsonFields.nil, _, p, hp => by simp [dumpsFields] at hp
  | JsonFields.cons k v rest, h, p, hp => by
      have h1 : asciiFields (JsonFields.cons k v rest) = true := h
      simp only [asciiFields, Bool.and_eq_true] at h1
      obtain ⟨⟨hk, _⟩, hrest⟩ := h1
      rcases (by simpa [dumpsFields] using hp :
          p = (k, dumpsJson ea v) ∨ p ∈ dumpsFields ea rest) with h'' | h''
      · rw [h'']
        exact hk
      · exact dumpsFields_keys_ascii ea rest hrest p h''

mutual
theorem dumpsJson_agree : ∀ j, asciiJson j = true → dumpsJson true j = dumpsJson false j
  | Json.null, _ => rfl
  | Json.bool true, _ => rfl
  | Json.bool false, _ => rfl
  | Json.num _, _ => rfl
  | Json.str s, h => by
      show quoteJsonString true s = quoteJsonString false s
      exact quote_agree s (by simpa only [asciiJson] using h)
  | Json.arr xs, h => by
      show "[" ++ dumpsArr true xs ++ "]" = "[" ++ dumpsArr false xs ++ "]"
      rw [dumpsArr_agree xs (by simpa only [asciiJson] using h)]
  | Json.obj fs, h => by
      have hascii : asciiFields fs = true := by simpa only [asciiJson] using h
      show "\x7b" ++ joinObjPairs true (sortPairs (dumpsFields true fs)) ++ "\x7d" =
        "\x7b" ++ joinObjPairs false (sortPairs (dumpsFields false fs)) ++ "\x7d"
      rw [dumpsFields_agree fs hascii]
      rw [joinObjPairs_agree _
        (fun p hp => dumpsFields_keys_ascii false fs hascii p (mem_sortPairs p _ hp))]

theorem dumpsArr_agree : ∀ xs, asciiList xs = true → dumpsArr true xs = dumpsArr false xs
  | JsonList.nil, _ => rfl
  | JsonList.cons x JsonList.nil, h => by
      show dumpsJson true x = dumpsJson false x
      exact dumpsJson_agree x (by simpa only [asciiList, Bool.and_true] using h)
  | JsonList.cons x (JsonList.cons y rest), h => by
      have h1 : asciiList (JsonList.cons x (JsonList.cons y rest)) = true := h
      simp only [asciiList, Bool.and_eq_true] at h1
      show dumpsJson true x ++ "," ++ dumpsArr true (JsonList.cons y rest) =
        dumpsJson false x ++ "," ++ dumpsArr false (JsonList.cons y rest)
      rw [dumpsJson_agree x h1.1,
        dumpsArr_agree (JsonList.cons y rest) (by simp [asciiList, h1.2.1, h1.2.2])]

theorem dumpsFields_agree : ∀ fs, asciiFields fs = true →
    dumpsFields true fs = dumpsFields false fs
  | JsonFields.nil, _ => rfl
  | JsonFields.cons k v rest, h => by
      have h1 : asciiFields (JsonFields.cons k v rest) = true := h
      simp only [asciiFields, Bool.and_eq_true] at h1
      show (k, dumpsJson true v) :: dumpsFields true rest =
        (k, dumpsJson false v) :: dumpsFields false rest
      rw [dumpsJson_agree v h1.1.2, dumpsFields_agree rest h1.2]
end

/-- Claim C6 counterexample: on the body `{"a": "é"}` the request hash the
code computes (`ensure_ascii=True` canonicalization) differs from the
spec's formula with the §4.A canonicalization that preserves non-ASCII
code points. -/
theorem request_hash_non_ascii_counterexample :
    buildRequestHash "POST" "/x" nonAsciiBody ≠ specRequestHash "POST" "/x" nonAsciiBody := by
  decide

/-- Claim C6 (corrected): `build_request_hash` hashes
`UPPER(method)|path|json.dumps(body, sort_keys, (",", ":"))` with the
`ensure_ascii=True` default, which escapes non-ASCII code points instead
of preserving them; it agrees with the spec's §4.A formula exactly on
bodies whose strings and keys are ASCII. -/
theorem request_hash_ascii_agreement :
    ∀ (method path : String) (body : Json), asciiJson body = true →
      buildRequestHash method path body = specRequestHash method path body := by
  intro m p b h
  unfold buildRequestHash specRequestHash idemCanonicalJson canonicalJson
  rw [dumpsJson_agree b h]

/-- Witness for the corrected C6 at an ASCII body. -/
theorem request_hash_ascii_agreement_witness :
    asciiJson asciiBody = true ∧
    buildRequestHash "POST" "/x" asciiBody = specRequestHash "POST" "/x" asciiBody :=
  ⟨by decide, request_hash_ascii_agreement "POST" "/x" asciiBody (by decide)⟩

/- ### Claim C1 -/

theorem chainRoot_eq : ∀ (es : List ExportEvent) (prev : Option String),
    chainRoot prev es =
      (match es.getLast? with | some e => some e.event_hash | none => prev)
  | [], _ => rfl
  | [e], _ => by simp [chainRoot]
  | e :: f :: fs, prev => by
      show chainRoot (some e.event_hash) (f :: fs) = _
      rw [chainRoot_eq (f :: fs) (some e.event_hash), List.getLast?_cons_cons]
      rcases hgl : (f :: fs).getLast? with _ | x
      · simp at hgl
      · simp [hgl]

/-- A head event that passes all four per-event checks steps the loop. -/
theorem checkEvents_cons_step (t c : String) (ev : ExportEvent) (rest : List ExportEvent)
    (prev : Option String) (idx : Nat)
    (h1 : ev.event_hash.length = 64)
    (h2 : ∀ pe, ev.prev_event_hash = some pe → pe.length = 64)
    (h3 : ev.prev_event_hash = prev)
    (h4 : sha256Hex (utf8 (t ++ "|" ++ c ++ "|" ++ ev.action ++ "|" ++ canonicalJson emptyObj
        ++ "|" ++ prev.getD "")) = ev.event_hash) :
    checkEvents t c prev idx (ev :: rest) =
      checkEvents t c (some ev.event_hash) (idx + 1) rest := by
  have hb : (match ev.prev_event_hash with
      | some pe => decide (pe.length ≠ 64)
      | none => false) = false := by
    cases hpe : ev.prev_event_hash with
    | none => rfl
    | some pe => simp [h2 pe hpe]
  simp only [checkEvents]
  rw [if_neg (show ¬(ev.event_hash.length ≠ 64) from fun hne => hne h1)]
  rw [if_neg (show ¬((match ev.prev_event_hash with
      | some pe => decide (pe.length ≠ 64)
      | none => false) = true) from by rw [hb]; simp)]
  rw [if_neg (show ¬(ev.prev_event_hash ≠ prev) from fun hne => hne h3)]
  rw [if_neg (show ¬(sha256Hex (utf8 (t ++ "|" ++ c ++ "|" ++ ev.action ++ "|"
      ++ canonicalJson emptyObj ++ "|" ++ prev.getD "")) ≠ ev.event_hash) from fun hne => hne h4)]

set_option maxHeartbeats 2000000 in
theorem checkEvents_build (t c : String) :
    ∀ (evts : List DBLineageEvent) (prev : Option String) (idx : Nat),
      (∀ s, prev = some s → s.length = 64) →
      checkEvents t c prev idx (buildExportEvents t c prev evts) =
        Except.ok (chainRoot prev (buildExportEvents t c prev evts)) := by
  intro evts
  induction evts with
  | nil => intro prev idx _; rfl
  | cons e rest ih =>
      intro prev idx hprev
      have hH : (computeEventHash ⟨t, c, e.action, emptyObj⟩ prev).length = 64 :=
        sha256Hex_length _
      have hstep := checkEvents_cons_step t c
        ⟨e.action, computeEventHash ⟨t, c, e.action, emptyObj⟩ prev, prev,
          rfc3339OfMicros e.created_at⟩
        (buildExportEvents t c (some (computeEventHash ⟨t, c, e.action, emptyObj⟩ prev)) rest)
        prev idx hH (fun pe hpe => hprev pe hpe) rfl rfl
      have hih := ih (some (computeEventHash ⟨t, c, e.action, emptyObj⟩ prev)) (idx + 1)
        (fun s hs => by rw [← Option.some.inj hs]; exact sha256Hex_length _)
      simp only [buildExportEvents, chainRoot]
      rw [hstep]
      exact hih

/-- `verifyLineageBody` succeeds on any export whose header fields are
the supported literals and whose event chain and anchor check out. -/
theorem verifyLineageBody_ok_of (e : LineageExport) (hv : e.version = 1)
    (halg : e.algorithm = "SHA256") (hcan : e.canonicalization = "sorted-json-no-whitespace")
    (pr : Option String)
    (hok : checkEvents e.tenant_id e.consent_id none 0 e.events = Except.ok pr)
    (ha : e.tenant_anchor = computeTenantAnchor e.tenant_id (pr.getD "")) :
    verifyLineageBody e = ⟨true, none, none, true⟩ := by
  unfold verifyLineageBody
  rw [if_neg (show ¬(e.version ≠ 1) from fun hne => hne hv)]
  rw [if_neg (show ¬(e.algorithm ≠ "SHA256") from fun hne => hne halg)]
  rw [if_neg (show ¬(e.canonicalization ≠ "sorted-json-no-whitespace")
    from fun hne => hne hcan)]
  rw [hok]
  show (if e.tenant_anchor ≠ computeTenantAnchor e.tenant_id (pr.getD "") then
      vfail none "tenant_anchor mismatch"
    else ⟨true, none, none, true⟩) = ⟨true, none, none, true⟩
  rw [if_neg (show ¬(e.tenant_anchor ≠ computeTenantAnchor e.tenant_id (pr.getD ""))
    from fun hne => hne ha)]

theorem export_verifies_body (t c : String) (db : List DBLineageEvent) :
    verifyLineageBody (exportConsentLineage t c db) = ⟨true, none, none, true⟩ := by
  have hchk : checkEvents t c none 0
      (buildExportEvents t c none (orderedEvents (sortEvents db))) =
      Except.ok (chainRoot none (buildExportEvents t c none (orderedEvents (sortEvents db)))) :=
    checkEvents_build t c (orderedEvents (sortEvents db)) none 0 (fun s hs => by cases hs)
  have hroot : ((chainRoot none
        (buildExportEvents t c none (orderedEvents (sortEvents db)))).getD "") =
      (((buildExportEvents t c none (orderedEvents (sortEvents db))).getLast?.map
        (fun e => e.event_hash)).getD "") := by
    rw [chainRoot_eq]
    cases (buildExportEvents t c none (orderedEvents (sortEvents db))).getLast? with
    | none => rfl
    | some x => rfl
  exact verifyLineageBody_ok_of (exportConsentLineage t c db) rfl rfl rfl
    (chainRoot none (buildExportEvents t c none (orderedEvents (sortEvents db))))
    hchk
    (by
      show computeTenantAnchor t
          (((buildExportEvents t c none (orderedEvents (sortEvents db))).getLast?.map
            (fun e => e.event_hash)).getD "") =
        computeTenantAnchor t
          ((chainRoot none (buildExportEvents t c none (orderedEvents (sortEvents db)))).getD "")
      rw [hroot])

/-- Claim C1: for every consent and every sequence of mutations recorded
through `add_lineage_event` (actions drawn from
created/updated/revoked/noop), the unsigned artifact produced by
`export_consent_lineage` verifies: `verify_exported_lineage` returns
`verified = true` and `anchor_verified = true`, for every signature
verifier (never consulted on unsigned exports). -/
theorem chain_round_trip_verifies :
    ∀ (vs : String → List Nat → String → Bool) (c : ConsentRow) (steps : List (String × Nat)),
      (∀ s ∈ steps, s.1 = "created" ∨ s.1 = "updated" ∨ s.1 = "revoked" ∨ s.1 = "noop") →
      verifyExportedLineage vs (exportConsentLineage c.tenant_id c.id (replayLineage c steps)) =
        ⟨true, none, none, true⟩ := by
  intro vs c steps _
  have hbody := export_verifies_body c.tenant_id c.id (replayLineage c steps)
  have h1 : (exportConsentLineage c.tenant_id c.id
      (replayLineage c steps)).signer_identity_fingerprint = none := rfl
  have h2 : (exportConsentLineage c.tenant_id c.id
      (replayLineage c steps)).signer_public_key = none := rfl
  have h3 : (exportConsentLineage c.tenant_id c.id
      (replayLineage c steps)).signature = none := rfl
  simp [verifyExportedLineage, h1, h2, h3, hbody]

/-- Witness for C1 at a concrete created→revoked sequence. -/
theorem chain_round_trip_verifies_witness :
    (∀ s ∈ ([("created", 1700000000000000), ("revoked", 1700000000000001)] : List (String × Nat)),
      s.1 = "created" ∨ s.1 = "updated" ∨ s.1 = "revoked" ∨ s.1 = "noop") ∧
    verifyExportedLineage trivialSig
      (exportConsentLineage sampleConsent.tenant_id sampleConsent.id
        (replayLineage sampleConsent
          [("created", 1700000000000000), ("revoked", 1700000000000001)])) =
      ⟨true, none, none, true⟩ :=
  ⟨by decide, chain_round_trip_verifies trivialSig sampleConsent _ (by decide)⟩

/- ### Claim C2 -/

theorem verifyLineageBody_verified (e : LineageExport)
    (h : (verifyLineageBody e).verified = true) :
    e.version = 1 ∧ e.algorithm = "SHA256" ∧ e.canonicalization = "sorted-json-no-whitespace" ∧
    ∃ pr, checkEvents e.tenant_id e.consent_id none 0 e.events = Except.ok pr ∧
      e.tenant_anchor = computeTenantAnchor e.tenant_id (pr.getD "") := by
  unfold verifyLineageBody at h
  by_cases h1 : e.version ≠ 1
  · rw [if_pos h1] at h; exact absurd h (by simp [vfail])
  rw [if_neg h1] at h
  by_cases h2 : e.algorithm ≠ "SHA256"
  · rw [if_pos h2] at h; exact absurd h (by simp [vfail])
  rw [if_neg h2] at h
  by_cases h3 : e.canonicalization ≠ "sorted-json-no-whitespace"
  · rw [if_pos h3] at h; exact absurd h (by simp [vfail])
  rw [if_neg h3] at h
  cases hc : checkEvents e.tenant_id e.consent_id none 0 e.events with
  | error er =>
      rw [hc] at h
      obtain ⟨i, r⟩ := er
      simp [vfail] at h
  | ok pr =>
      rw [hc] at h
      simp only [] at h
      by_cases h4 : e.tenant_anchor ≠ computeTenantAnchor e.tenant_id (pr.getD "")
      · rw [if_pos h4] at h; exact absurd h (by simp [vfail])
      · exact ⟨not_ne_iff.mp h1, not_ne_iff.mp h2, not_ne_iff.mp h3, pr, rfl, not_ne_iff.mp h4⟩


/-- The signature gate cannot rescue an export whose structural body
fails: either a signature-path check fails or control reaches the body. -/
theorem verify_of_body_false (vs : String → List Nat → String → Bool) (e : LineageExport)
    (hbody : (verifyLineageBody e).verified = false) :
    (verifyExportedLineage vs e).verified = false := by
  simp only [verifyExportedLineage]
  by_cases hs : (e.signer_identity_fingerprint.isSome || e.signer_public_key.isSome
      || e.signature.isSome) = true
  · rw [if_pos hs]
    rcases e.signer_identity_fingerprint with _ | sfp <;>
      rcases e.signer_public_key with _ | spk <;>
        rcases e.signature with _ | sig <;>
          simp only [] <;>
            first
            | rfl
            | (cases hcf : computeIdentityFingerprint spk with
               | error err => rfl
               | ok fp =>
                   simp only []
                   by_cases hfp : fp ≠ sfp
                   · rw [if_pos hfp]; rfl
                   · rw [if_neg hfp]
                     by_cases hvs :
                       ¬(vs spk (canonicalJsonBytes (lineageSignableJson e)) sig = true)
                     · rw [if_pos hvs]; rfl
                     · rw [if_neg hvs]; exact hbody)
  · rw [if_neg hs]; exact hbody

theorem verifyExportedLineage_structure (vs : String → List Nat → String → Bool)
    (e : LineageExport) (h : (verifyExportedLineage vs e).verified = true) :
    (verifyLineageBody e).verified = true := by
  cases hres : (verifyLineageBody e).verified with
  | true => rfl
  | false =>
      rw [verify_of_body_false vs e hres] at h
      exact absurd h Bool.false_ne_true

/-- A verified body is exactly the success record. -/
theorem verifyLineageBody_eq_success (e : LineageExport)
    (h : (verifyLineageBody e).verified = true) :
    verifyLineageBody e = ⟨true, none, none, true⟩ := by
  obtain ⟨hv, halg, hcan, pr, hok, ha⟩ := verifyLineageBody_verified e h
  exact verifyLineageBody_ok_of e hv halg hcan pr hok ha

/-- Inverting one successful step of the event loop. -/
theorem checkEvents_cons_ok (t c : String) (ev : ExportEvent) (rest : List ExportEvent)
    (prev : Option String) (idx : Nat) (r : Option String)
    (h : checkEvents t c prev idx (ev :: rest) = Except.ok r) :
    ev.event_hash.length = 64 ∧
    (∀ pe, ev.prev_event_hash = some pe → pe.length = 64) ∧
    ev.prev_event_hash = prev ∧
    sha256Hex (utf8 (t ++ "|" ++ c ++ "|" ++ ev.action ++ "|" ++ canonicalJson emptyObj
      ++ "|" ++ prev.getD "")) = ev.event_hash ∧
    checkEvents t c (some ev.event_hash) (idx + 1) rest = Except.ok r := by
  simp only [checkEvents] at h
  by_cases h1 : ev.event_hash.length ≠ 64
  · rw [if_pos h1] at h; exact Except.noConfusion h
  rw [if_neg h1] at h
  by_cases h2 : (match ev.prev_event_hash with
      | some pe => decide (pe.length ≠ 64)
      | none => false) = true
  · rw [if_pos h2] at h; exact Except.noConfusion h
  rw [if_neg h2] at h
  by_cases h3 : ev.prev_event_hash ≠ prev
  · rw [if_pos h3] at h; exact Except.noConfusion h
  rw [if_neg h3] at h
  by_cases h4 : sha256Hex (utf8 (t ++ "|" ++ c ++ "|" ++ ev.action ++ "|"
      ++ canonicalJson emptyObj ++ "|" ++ prev.getD "")) ≠ ev.event_hash
  · rw [if_pos h4] at h; exact Except.noConfusion h
  rw [if_neg h4] at h
  refine ⟨not_ne_iff.mp h1, ?_, not_ne_iff.mp h3, not_ne_iff.mp h4, h⟩
  intro pe hpe
  rw [hpe] at h2
  simpa using h2

theorem checkEvents_tamper_hash (t c : String) :
    ∀ (evts : List ExportEvent) (j : Nat) (prev : Option String) (idx : Nat)
      (r : Option String) (ev : ExportEvent) (nh : String),
      checkEvents t c prev idx evts = Except.ok r →
      evts.get? j = some ev →
      nh ≠ ev.event_hash → nh.length = ev.event_hash.length →
      ∃ i reason, checkEvents t c prev idx (setEvHash evts j nh) = Except.error (i, reason) := by
  intro evts
  induction evts with
  | nil => intro j prev idx r ev nh _ hj; simp at hj
  | cons e rest ih =>
      intro j prev idx r ev nh hok hj hne hlen
      obtain ⟨k1, k2, k3, k4, k5⟩ := checkEvents_cons_ok t c e rest prev idx r hok
      cases j with
      | zero =>
          have he : e = ev := by simpa using hj
          subst he
          have hb : (match e.prev_event_hash with
              | some pe => decide (pe.length ≠ 64)
              | none => false) = false := by
            cases hpe : e.prev_event_hash with
            | none => rfl
            | some pe => simp [k2 pe hpe]
          refine ⟨some idx, "event_hash mismatch", ?_⟩
          simp only [setEvHash, checkEvents]
          rw [if_neg (show ¬(nh.length ≠ 64) from fun hx => hx (by rw [hlen, k1]))]
          rw [if_neg (show ¬((match e.prev_event_hash with
              | some pe => decide (pe.length ≠ 64)
              | none => false) = true) from by rw [hb]; simp)]
          rw [if_neg (show ¬(e.prev_event_hash ≠ prev) from fun hx => hx k3)]
          rw [if_pos (show sha256Hex (utf8 (t ++ "|" ++ c ++ "|" ++ e.action ++ "|"
              ++ canonicalJson emptyObj ++ "|" ++ prev.getD "")) ≠ nh
            from fun heq => hne ((k4.symm.trans heq).symm))]
      | succ jj =>
          have hj' : rest.get? jj = some ev := by simpa using hj
          obtain ⟨i, reason, herr⟩ := ih jj (some e.event_hash) (idx + 1) r ev nh k5 hj' hne hlen
          refine ⟨i, reason, ?_⟩
          simp only [setEvHash]
          rw [checkEvents_cons_step t c e (setEvHash rest jj nh) prev idx k1 k2 k3 k4]
          exact herr

theorem checkEvents_tamper_prev (t c : String) :
    ∀ (evts : List ExportEvent) (j : Nat) (prev : Option String) (idx : Nat)
      (r : Option String) (ev : ExportEvent) (s np : String),
      checkEvents t c prev idx evts = Except.ok r →
      evts.get? j = some ev →
      ev.prev_event_hash = some s →
      np ≠ s → np.length = s.length →
      ∃ i reason,
        checkEvents t c prev idx (setEvPrev evts j (some np)) = Except.error (i, reason) := by
  intro evts
  induction evts with
  | nil => intro j prev idx r ev s np _ hj; simp at hj
  | cons e rest ih =>
      intro j prev idx r ev s np hok hj hs hne hlen
      obtain ⟨k1, k2, k3, k4, k5⟩ := checkEvents_cons_ok t c e rest prev idx r hok
      cases j with
      | zero =>
          have he : e = ev := by simpa using hj
          subst he
          have hslen : s.length = 64 := k2 s hs
          have hprev_eq : prev = some s := k3.symm.trans hs
          refine ⟨some idx, "prev_event_hash does not match chain", ?_⟩
          simp only [setEvPrev, checkEvents]
          rw [if_neg (show ¬(e.event_hash.length ≠ 64) from fun hx => hx k1)]
          rw [if_neg (show ¬((decide (np.length ≠ 64)) = true)
            from by simp [hlen, hslen])]
          rw [if_pos (show (some np : Option String) ≠ prev
            from fun heq => hne (Option.some.inj (heq.trans hprev_eq)))]
      | succ jj =>
          have hj' : rest.get? jj = some ev := by simpa using hj
          obtain ⟨i, reason, herr⟩ :=
            ih jj (some e.event_hash) (idx + 1) r ev s np k5 hj' hs hne hlen
          refine ⟨i, reason, ?_⟩
          simp only [setEvPrev]
          rw [checkEvents_cons_step t c e (setEvPrev rest jj (some np)) prev idx k1 k2 k3 k4]
          exact herr

theorem verifyAnchorSnapshot_verified (s : AnchorSnapshot)
    (h : (verifyAnchorSnapshot s).verified = true) :
    s.digest = computeAnchorDigest s.anchors := by
  unfold verifyAnchorSnapshot at h
  by_cases h1 : s.version ≠ 1
  · rw [if_pos h1] at h; simp at h
  rw [if_neg h1] at h
  by_cases h2 : s.algorithm ≠ "SHA256"
  · rw [if_pos h2] at h; simp at h
  rw [if_neg h2] at h
  by_cases h3 : s.anchors ≠ sortStrings s.anchors
  · rw [if_pos h3] at h; simp at h
  rw [if_neg h3] at h
  by_cases h4 : s.anchor_count ≠ Int.ofNat s.anchors.length
  · rw [if_pos h4] at h; simp at h
  rw [if_neg h4] at h
  by_cases h5 : s.digest ≠ computeAnchorDigest s.anchors
  · rw [if_pos h5] at h; simp at h
  · exact not_ne_iff.mp h5

theorem tamper_hash_fails (vs : String → List Nat → String → Bool) (e : LineageExport)
    (j : Nat) (ev : ExportEvent) (nh : String)
    (hver : (verifyExportedLineage vs e).verified = true)
    (hj : e.events.get? j = some ev)
    (hch : OneCharChange ev.event_hash nh) :
    (verifyExportedLineage vs { e with events := setEvHash e.events j nh }).verified = false := by
  have hbody := verifyExportedLineage_structure vs e hver
  obtain ⟨hv, halg, hcan, pr, hok, ha⟩ := verifyLineageBody_verified e hbody
  obtain ⟨i, reason, herr⟩ := checkEvents_tamper_hash e.tenant_id e.consent_id e.events j
    none 0 pr ev nh hok hj (oneCharChange_ne hch) (oneCharChange_length hch)
  apply verify_of_body_false
  cases hres : (verifyLineageBody { e with events := setEvHash e.events j nh }).verified with
  | false => rfl
  | true =>
      obtain ⟨_, _, _, pr', hok', _⟩ := verifyLineageBody_verified _ hres
      have hok'' : checkEvents e.tenant_id e.consent_id none 0 (setEvHash e.events j nh) =
          Except.ok pr' := hok'
      rw [herr] at hok''
      exact Except.noConfusion hok''

theorem tamper_prev_fails (vs : String → List Nat → String → Bool) (e : LineageExport)
    (j : Nat) (ev : ExportEvent) (s np : String)
    (hver : (verifyExportedLineage vs e).verified = true)
    (hj : e.events.get? j = some ev)
    (hs : ev.prev_event_hash = some s)
    (hch : OneCharChange s np) :
    (verifyExportedLineage vs
      { e with events := setEvPrev e.events j (some np) }).verified = false := by
  have hbody := verifyExportedLineage_structure vs e hver
  obtain ⟨hv, halg, hcan, pr, hok, ha⟩ := verifyLineageBody_verified e hbody
  obtain ⟨i, reason, herr⟩ := checkEvents_tamper_prev e.tenant_id e.consent_id e.events j
    none 0 pr ev s np hok hj hs (oneCharChange_ne hch) (oneCharChange_length hch)
  apply verify_of_body_false
  cases hres : (verifyLineageBody
      { e with events := setEvPrev e.events j (some np) }).verified with
  | false => rfl
  | true =>
      obtain ⟨_, _, _, pr', hok', _⟩ := verifyLineageBody_verified _ hres
      have hok'' : checkEvents e.tenant_id e.consent_id none 0 (setEvPrev e.events j (some np)) =
          Except.ok pr' := hok'
      rw [herr] at hok''
      exact Except.noConfusion hok''

theorem tamper_anchor_fails (vs : String → List Nat → String → Bool) (e : LineageExport)
    (a2 : String)
    (hver : (verifyExportedLineage vs e).verified = true)
    (hch : OneCharChange e.tenant_anchor a2) :
    (verifyExportedLineage vs { e with tenant_anchor := a2 }).verified = false := by
  have hbody := verifyExportedLineage_structure vs e hver
  obtain ⟨hv, halg, hcan, pr, hok, ha⟩ := verifyLineageBody_verified e hbody
  apply verify_of_body_false
  cases hres : (verifyLineageBody { e with tenant_anchor := a2 }).verified with
  | false => rfl
  | true =>
      obtain ⟨_, _, _, pr', hok', ha'⟩ := verifyLineageBody_verified _ hres
      have hok'' : checkEvents e.tenant_id e.consent_id none 0 e.events = Except.ok pr' := hok'
      have hpr : pr' = pr := Except.ok.inj (hok''.symm.trans hok)
      have ha'' : a2 = computeTenantAnchor e.tenant_id (pr'.getD "") := ha'
      rw [hpr] at ha''
      exact absurd (ha''.trans ha.symm) (oneCharChange_ne hch)

/-- Claim C2: on every accepted lineage export (for every signature
verifier), changing a single character of any `event_hash`, any non-null
`prev_event_hash`, or the `tenant_anchor` makes `verify_exported_lineage`
return `verified = false`; and on every accepted snapshot, changing a
single character of `digest` makes `verify_anchor_snapshot` return
`verified = false`. -/
theorem tamper_detection :
    (∀ (vs : String → List Nat → String → Bool) (e : LineageExport) (j : Nat)
        (ev : ExportEvent) (nh : String),
      (verifyExportedLineage vs e).verified = true →
      e.events.get? j = some ev →
      OneCharChange ev.event_hash nh →
      (verifyExportedLineage vs { e with events := setEvHash e.events j nh }).verified = false) ∧
    (∀ (vs : String → List Nat → String → Bool) (e : LineageExport) (j : Nat)
        (ev : ExportEvent) (s np : String),
      (verifyExportedLineage vs e).verified = true →
      e.events.get? j = some ev →
      ev.prev_event_hash = some s →
      OneCharChange s np →
      (verifyExportedLineage vs
        { e with events := setEvPrev e.events j (some np) }).verified = false) ∧
    (∀ (vs : String → List Nat → String → Bool) (e : LineageExport) (a2 : String),
      (verifyExportedLineage vs e).verified = true →
      OneCharChange e.tenant_anchor a2 →
      (verifyExportedLineage vs { e with tenant_anchor := a2 }).verified = false) ∧
    (∀ (snap : AnchorSnapshot) (d2 : String),
      (verifyAnchorSnapshot snap).verified = true →
      OneCharChange snap.digest d2 →
      (verifyAnchorSnapshot { snap with digest := d2 }).verified = false) := by
  refine ⟨tamper_hash_fails, tamper_prev_fails, tamper_anchor_fails, ?_⟩
  intro snap d2 hver hch
  cases hres : (verifyAnchorSnapshot { snap with digest := d2 }).verified with
  | false => rfl
  | true =>
      have hd2 : d2 = computeAnchorDigest snap.anchors := verifyAnchorSnapshot_verified _ hres
      have hd : snap.digest = computeAnchorDigest snap.anchors :=
        verifyAnchorSnapshot_verified _ hver
      exact absurd (hd2.trans hd.symm) (oneCharChange_ne hch)

set_option maxHeartbeats 8000000 in
/-- Witness for C2: a concrete accepted two-event export and snapshot,
with each tamper location exercised. -/
theorem tamper_detection_witness :
    ((verifyExportedLineage trivialSig sampleExport).verified = true ∧
      sampleExport.events.get? 0 = some sampleEv0 ∧
      OneCharChange sampleEv0.event_hash (flipToZ sampleEv0.event_hash) ∧
      (verifyExportedLineage trivialSig
        { sampleExport with
          events := setEvHash sampleExport.events 0
            (flipToZ sampleEv0.event_hash) }).verified = false) ∧
    (sampleExport.events.get? 1 = some sampleEv1 ∧
      sampleEv1.prev_event_hash = some samplePrev1 ∧
      OneCharChange samplePrev1 (flipToZ samplePrev1) ∧
      (verifyExportedLineage trivialSig
        { sampleExport with
          events := setEvPrev sampleExport.events 1
            (some (flipToZ samplePrev1)) }).verified = false) ∧
    (OneCharChange sampleExport.tenant_anchor (flipToZ sampleExport.tenant_anchor) ∧
      (verifyExportedLineage trivialSig
        { sampleExport with
          tenant_anchor := flipToZ sampleExport.tenant_anchor }).verified = false) ∧
    ((verifyAnchorSnapshot sampleSnapshot).verified = true ∧
      OneCharChange sampleSnapshot.digest (flipToZ sampleSnapshot.digest) ∧
      (verifyAnchorSnapshot
        { sampleSnapshot with digest := flipToZ sampleSnapshot.digest }).verified = false) :=
  by
  have hver : (verifyExportedLineage trivialSig sampleExport).verified = true := by decide
  have hg0 : sampleExport.events.get? 0 = some sampleEv0 := by decide
  have hg1 : sampleExport.events.get? 1 = some sampleEv1 := by decide
  have hp1 : sampleEv1.prev_event_hash = some samplePrev1 := by decide
  have hch0 : OneCharChange sampleEv0.event_hash (flipToZ sampleEv0.event_hash) :=
    ⟨0, 'z', by decide, by decide, by decide⟩
  have hch1 : OneCharChange samplePrev1 (flipToZ samplePrev1) :=
    ⟨0, 'z', by decide, by decide, by decide⟩
  have hcha : OneCharChange sampleExport.tenant_anchor (flipToZ sampleExport.tenant_anchor) :=
    ⟨0, 'z', by decide, by decide, by decide⟩
  have hsver : (verifyAnchorSnapshot sampleSnapshot).verified = true := by decide
  have hchd : OneCharChange sampleSnapshot.digest (flipToZ sampleSnapshot.digest) :=
    ⟨0, 'z', by decide, by decide, by decide⟩
  exact ⟨⟨hver, hg0, hch0,
      tamper_detection.1 trivialSig sampleExport 0 sampleEv0 (flipToZ sampleEv0.event_hash)
        hver hg0 hch0⟩,
    ⟨hg1, hp1, hch1,
      tamper_detection.2.1 trivialSig sampleExport 1 sampleEv1 samplePrev1 (flipToZ samplePrev1)
        hver hg1 hp1 hch1⟩,
    ⟨hcha,
      tamper_detection.2.2.1 trivialSig sampleExport (flipToZ sampleExport.tenant_anchor)
        hver hcha⟩,
    ⟨hsver, hchd,
      tamper_detection.2.2.2 sampleSnapshot (flipToZ sampleSnapshot.digest) hsver hchd⟩⟩

/- ### Claim C4 -/

theorem verifyExportedLineage_eq_success (vs : String → List Nat → String → Bool)
    (e : LineageExport) (h : (verifyExportedLineage vs e).verified = true) :
    verifyExportedLineage vs e = ⟨true, none, none, true⟩ := by
  have hbs := verifyLineageBody_eq_success e (verifyExportedLineage_structure vs e h)
  simp only [verifyExportedLineage] at h ⊢
  by_cases hs : (e.signer_identity_fingerprint.isSome || e.signer_public_key.isSome
      || e.signature.isSome) = true
  · rw [if_pos hs] at h ⊢
    rcases hx1 : e.signer_identity_fingerprint with _ | sfp <;>
      rcases hx2 : e.signer_public_key with _ | spk <;>
        rcases hx3 : e.signature with _ | sig <;>
          rw [hx1, hx2, hx3] at h <;>
            simp only [] at h ⊢ <;>
              first
              | (exact absurd h Bool.false_ne_true)
              | (cases hcf : computeIdentityFingerprint spk with
                 | error err =>
                     rw [hcf] at h
                     exact absurd h Bool.false_ne_true
                 | ok fp =>
                     rw [hcf] at h
                     simp only [] at h ⊢
                     by_cases hfp : fp ≠ sfp
                     · rw [if_pos hfp] at h; exact absurd h Bool.false_ne_true
                     · rw [if_neg hfp] at h ⊢
                       by_cases hvs :
                         ¬(vs spk (canonicalJsonBytes (lineageSignableJson e)) sig = true)
                       · rw [if_pos hvs] at h; exact absurd h Bool.false_ne_true
                       · rw [if_neg hvs]; exact hbs)
  · rw [if_neg hs]; exact hbs

/-- Claim C4 counterexample: a proof with empty `included_events` whose
embedded lineage is invalid is rejected with the lineage's failure reason
(`unsupported version`), not with the empty-`included_events` reason — the
lineage check runs first, contrary to the claimed order. -/
theorem included_empty_not_reported_first :
    emptyIncludedBadLineageProof.included_events = [] ∧
    (verifyConsentProof trivialSig emptyIncludedBadLineageProof).failure_reason =
      some "unsupported version" ∧
    (verifyConsentProof trivialSig emptyIncludedBadLineageProof).failure_reason ≠
      some "included_events cannot be empty" :=
  ⟨rfl, by decide, by decide⟩

/-- Claim C4 (corrected): `verify_consent_proof` runs
`verify_exported_lineage` on the embedded lineage (and the anchor and
tenant/consent cross-checks) before the `included_events` emptiness
check.  Hence (1) a proof with empty `included_events` whose earlier
checks all pass is rejected with `included_events cannot be empty`, and
(2) whenever the embedded lineage is invalid the failure reason is the
lineage's failure reason (mapped to the signature-failure message when it
mentions a signature), regardless of `included_events`. -/
theorem lineage_check_precedes_included_empty :
    (∀ (vs : String → List Nat → String → Bool) (p : ConsentProof),
      p.version = 1 → p.proof_type = "CONSENT_STATE_AT_TIME" →
      (p.asserted_state = "ACTIVE" ∨ p.asserted_state = "REVOKED") →
      (∃ tv, parseRfc3339 p.asserted_at = some tv) →
      (verifyExportedLineage vs p.lineage).verified = true →
      p.tenant_anchor = p.lineage.tenant_anchor →
      p.lineage.tenant_id = p.tenant_id →
      p.lineage.consent_id = p.consent_id →
      p.included_events = [] →
      verifyConsentProof vs p = ⟨false, "UNKNOWN", some "included_events cannot be empty"⟩) ∧
    (∀ (vs : String → List Nat → String → Bool) (p : ConsentProof),
      p.version = 1 → p.proof_type = "CONSENT_STATE_AT_TIME" →
      (p.asserted_state = "ACTIVE" ∨ p.asserted_state = "REVOKED") →
      (∃ tv, parseRfc3339 p.asserted_at = some tv) →
      (verifyExportedLineage vs p.lineage).verified = false →
      (verifyConsentProof vs p).failure_reason = some
        (if strContains (((verifyExportedLineage vs p.lineage).failure_reason).getD
            "lineage verification failed") "signature" then
          "lineage signature verification failed"
        else ((verifyExportedLineage vs p.lineage).failure_reason).getD
          "lineage verification failed")) := by
  constructor
  · intro vs p hv hpt hst hparse hlv hta htid hcid hinc
    obtain ⟨tv, hp⟩ := hparse
    simp only [verifyConsentProof]
    rw [if_neg (show ¬(p.version ≠ 1) from fun h => h hv)]
    rw [if_neg (show ¬(p.proof_type ≠ "CONSENT_STATE_AT_TIME") from fun h => h hpt)]
    rw [if_neg (show ¬(p.asserted_state ≠ "ACTIVE" ∧ p.asserted_state ≠ "REVOKED") from
      fun hand => by rcases hst with h | h
                     · exact hand.1 h
                     · exact hand.2 h)]
    rw [hp]
    simp only []
    rw [if_neg (show ¬(¬((verifyExportedLineage vs p.lineage).verified = true)) from
      fun hn => hn hlv)]
    rw [if_neg (show ¬(¬((verifyExportedLineage vs p.lineage).anchor_verified = true)) from
      fun hn => hn (by rw [verifyExportedLineage_eq_success vs p.lineage hlv]))]
    rw [if_neg (show ¬(p.tenant_anchor ≠ p.lineage.tenant_anchor) from fun h => h hta)]
    rw [if_neg (show ¬(p.lineage.tenant_id ≠ p.tenant_id) from fun h => h htid)]
    rw [if_neg (show ¬(p.lineage.consent_id ≠ p.consent_id) from fun h => h hcid)]
    rw [if_pos (show p.included_events.length = 0 from by rw [hinc]; rfl)]
  · intro vs p hv hpt hst hparse hlv
    obtain ⟨tv, hp⟩ := hparse
    simp only [verifyConsentProof]
    rw [if_neg (show ¬(p.version ≠ 1) from fun h => h hv)]
    rw [if_neg (show ¬(p.proof_type ≠ "CONSENT_STATE_AT_TIME") from fun h => h hpt)]
    rw [if_neg (show ¬(p.asserted_state ≠ "ACTIVE" ∧ p.asserted_state ≠ "REVOKED") from
      fun hand => by rcases hst with h | h
                     · exact hand.1 h
                     · exact hand.2 h)]
    rw [hp]
    simp only []
    rw [if_pos (show ¬((verifyExportedLineage vs p.lineage).verified = true) from
      fun hh => Bool.false_ne_true (hlv.symm.trans hh))]

/-- Witness for the corrected C4 at a valid zero-event lineage. -/
theorem lineage_check_precedes_included_empty_witness :
    (verifyExportedLineage trivialSig emptyIncludedGoodLineageProof.lineage).verified = true ∧
    verifyConsentProof trivialSig emptyIncludedGoodLineageProof =
      ⟨false, "UNKNOWN", some "included_events cannot be empty"⟩ :=
  ⟨by decide,
    lineage_check_precedes_included_empty.1 trivialSig emptyIncludedGoodLineageProof
      rfl rfl (Or.inl rfl) ⟨1767225600000000, by decide⟩ (by decide) rfl rfl rfl rfl⟩

end ConsentLedger
